import Mathlib

/-!
Shallow embedding of the domain synchronization core of the registrar
(src/registrar/models/domain.py): the nameserver reconciler, the
singleton-contact reconciler, the per-instance cache, and the lifecycle
state machine, together with proofs about the behaviour of each.

The remote registry (the EPP protocol client) is modelled as a function
from commands to typed results; the Django object store for public
contacts is modelled as a list of records.  External library behaviour
(django-fsm transition guards, the python ipaddress module, the
PublicContact model defaults) is taken from the specification of those
collaborators, as noted on the individual definitions.
-/

namespace DotGov

/-- Registry commands sent by the Domain model, one constructor for each
distinct command shape built in domain.py. -/
inductive Cmd where
  | infoDomain (name : String)
  | createDomain (name : String) (registrant : String)
  | updateDomainAddHost (name : String) (host : String)
  | updateDomainRemHost (name : String) (host : String)
  | updateDomainAddContact (name : String) (contactId : String) (ctype : String)
  | updateDomainRemContact (name : String) (contactId : String) (ctype : String)
  | updateDomainRegistrant (name : String) (registrant : String)
  | deleteDomain (name : String)
  | createHost (host : String) (addrs : Option (List String))
  | updateHost (host : String) (add : List String) (rem : List String)
  | deleteHost (host : String)
  | infoHost (name : String)
  | createContact (id : String) (email : String)
  | updateContact (id : String) (email : String)
  | infoContact (id : String)
deriving DecidableEq, Repr

/-- Result of registry.send: a successful response carrying its response
code, or a RegistryError carrying its error code. -/
inductive RegResult where
  | ok (code : Nat)
  | err (code : Nat)
deriving DecidableEq, Repr

/-- The registry is modelled as a deterministic oracle from commands to
results. -/
abbrev Registry := Cmd → RegResult

/-- EPP response code COMMAND_COMPLETED_SUCCESSFULLY. -/
def codeOK : Nat := 1000

/-- EPP error code OBJECT_EXISTS. -/
def codeObjectExists : Nat := 2302

/-- EPP error code OBJECT_DOES_NOT_EXIST. -/
def codeObjectDoesNotExist : Nat := 2303

/-- EPP error code OBJECT_ASSOCIATION_PROHIBITS_OPERATION. -/
def codeAssociationProhibits : Nat := 2305

/-- Lifecycle states of Domain.State. -/
inductive DState where
  | unknown
  | dnsNeeded
  | ready
  | onHold
  | deleted
deriving DecidableEq, Repr

/-- One entry of the desired nameserver list handed to the nameservers
setter: a hostname together with an optional address list (a 1-tuple in
the python source carries no address list at all, which we render as
none). -/
structure Host where
  name : String
  addrs : Option (List String)
deriving DecidableEq, Repr

/-- Containment of one character list in another as a contiguous
substring, starting comparison at every position. -/
def charsStartWith : List Char → List Char → Bool
  | [], _ => true
  | _ :: _, [] => false
  | a :: as, b :: bs => a == b && charsStartWith as bs

/-- The python membership test needle in hay on strings, as used by
Domain.isSubdomain. -/
def charsContain : List Char → List Char → Bool
  | hay, needle =>
    if charsStartWith needle hay then true
    else match hay with
      | [] => false
      | _ :: t => charsContain t needle

/-- Domain.isSubdomain: the source tests substring containment of the
domain name in the nameserver string. -/
def isSubdomain (domainName nameserver : String) : Bool :=
  charsContain nameserver.toList domainName.toList

/-- The python test ip is None or ip equals the empty list, used in
Domain.checkHostIPCombo. -/
def isEmptyIp (ip : Option (List String)) : Bool :=
  match ip with
  | none => true
  | some [] => true
  | some (_ :: _) => false

/-- Python set equality on two address lists, as used by the comparison
set(new) different from set(old) in Domain.getNameserverChanges. -/
def setEq (a b : List String) : Bool :=
  a.all (fun x => b.contains x) && b.all (fun x => a.contains x)

/-- Domain.checkHostIPCombo: validation of one hostname and address
combination.  The ip-literal validity test (the python ipaddress module,
an external library) is a parameter.  Error strings abbreviate the
interpolated python messages. -/
def checkHostIPCombo (validIp : String → Bool) (domainName nameserver : String)
    (ip : Option (List String)) : Except String Unit :=
  if isSubdomain domainName nameserver && isEmptyIp ip then
    .error ("Nameserver " ++ nameserver ++
      " needs to have an IP address because it is a subdomain")
  else if !isSubdomain domainName nameserver && !isEmptyIp ip then
    .error ("Nameserver " ++ nameserver ++
      " cannot be linked because it is not a subdomain")
  else if !isEmptyIp ip then
    if (ip.getD []).all validIp then .ok ()
    else .error ("Nameserver " ++ nameserver ++ " has an invalid IP address")
  else .ok ()

/-- An insertion-ordered string-keyed dictionary with optional address
lists as values, the shape of the python dicts built by
Domain._convert_list_to_dict. -/
abbrev NsDict := List (String × Option (List String))

/-- Whether a key is present in the dictionary. -/
def dictHasKey (dic : NsDict) (k : String) : Bool :=
  dic.any (fun p => p.1 == k)

/-- Python dict assignment: overwrite in place when the key exists,
append otherwise. -/
def dictInsert (dic : NsDict) (k : String) (v : Option (List String)) : NsDict :=
  if dictHasKey dic k then dic.map (fun p => if p.1 == k then (k, v) else p)
  else dic ++ [(k, v)]

/-- Python dict lookup returning the value when the key is present. -/
def dictGet (dic : NsDict) (k : String) : Option (Option (List String)) :=
  match dic.find? (fun p => p.1 == k) with
  | some p => some p.2
  | none => none

/-- Domain._convert_list_to_dict: build the dictionary from the host
tuple list (a 1-tuple stores value None, a 2-tuple stores its address
list). -/
def convert_list_to_dict (l : List Host) : NsDict :=
  l.foldl (fun dic h => dictInsert dic h.name h.addrs) []

/-- The loop over previousHostDict in Domain.getNameserverChanges,
collecting deleted entries and changed entries.  A changed entry whose
new value is present is validated on the spot; a changed entry whose new
value is None is skipped entirely.  A previous value of None compared
against a present new value would make the python set() call raise
TypeError, rendered as an error here. -/
def diffLoop (validIp : String → Bool) (domainName : String) (newDict : NsDict) :
    NsDict → Except String (List (String × Option (List String)) × List (String × List String))
  | [] => .ok ([], [])
  | (h, addrs) :: rest =>
    match dictGet newDict h with
    | none => do
      let (dl, ul) ← diffLoop validIp domainName newDict rest
      .ok ((h, addrs) :: dl, ul)
    | some none => diffLoop validIp domainName newDict rest
    | some (some nl) =>
      match addrs with
      | none => .error "TypeError: NoneType is not iterable"
      | some ol =>
        if setEq nl ol then diffLoop validIp domainName newDict rest
        else do
          let _ ← checkHostIPCombo validIp domainName h (some nl)
          let (dl, ul) ← diffLoop validIp domainName newDict rest
          .ok (dl, (h, nl) :: ul)

/-- The new_values comprehension in Domain.getNameserverChanges: entries
of the desired dictionary absent from the previous one. -/
def newValuesOf (newDict prevDict : NsDict) : NsDict :=
  newDict.filter (fun p => !(dictHasKey prevDict p.1))

/-- The validation loop over new_values in Domain.getNameserverChanges. -/
def checkNewLoop (validIp : String → Bool) (domainName : String) :
    NsDict → Except String Unit
  | [] => .ok ()
  | (h, ip) :: rest => do
    let _ ← checkHostIPCombo validIp domainName h ip
    checkNewLoop validIp domainName rest

/-- Domain.getNameserverChanges: current nameservers (the output shape of
the nameservers getter, name with address list) against the desired host
list, returning deleted entries, updated entries, new entries and the
previous dictionary. -/
def getNameserverChanges (validIp : String → Bool) (domainName : String)
    (current : List (String × List String)) (hosts : List Host) :
    Except String (List (String × Option (List String)) × List (String × List String) ×
      NsDict × NsDict) := do
  let prevDict := convert_list_to_dict (current.map (fun p => ⟨p.1, some p.2⟩))
  let newDict := convert_list_to_dict hosts
  let (dl, ul) ← diffLoop validIp domainName newDict prevDict
  let nv := newValuesOf newDict prevDict
  let _ ← checkNewLoop validIp domainName nv
  .ok (dl, ul, nv, prevDict)

/-- Domain._create_host: send CreateHost and return the response or error
code. -/
def create_host (reg : Registry) (host : String) (addrs : Option (List String)) :
    Nat × List Cmd :=
  let req := Cmd.createHost host addrs
  match reg req with
  | .ok c => (c, [req])
  | .err c => (c, [req])

/-- Domain._delete_host: detach the host from the domain, then delete the
host object.  An OBJECT_ASSOCIATION_PROHIBITS_OPERATION error on either
step is logged and swallowed (the python function falls off the end and
returns None); any other error code is returned. -/
def delete_host (reg : Registry) (domainName nameserver : String) :
    Option Nat × List Cmd :=
  let req1 := Cmd.updateDomainRemHost domainName nameserver
  match reg req1 with
  | .err c => if c = codeAssociationProhibits then (none, [req1]) else (some c, [req1])
  | .ok _ =>
    let req2 := Cmd.deleteHost nameserver
    match reg req2 with
    | .err c =>
      if c = codeAssociationProhibits then (none, [req1, req2]) else (some c, [req1, req2])
    | .ok c => (some c, [req1, req2])

/-- Domain._deleted_host_values: run _delete_host on every entry, counting
those whose final response code was COMMAND_COMPLETED_SUCCESSFULLY. -/
def deleted_host_values (reg : Registry) (domainName : String) :
    List (String × Option (List String)) → Nat × List Cmd
  | [] => (0, [])
  | (h, _) :: rest =>
    let (r, tr) := delete_host reg domainName h
    let (c, tr2) := deleted_host_values reg domainName rest
    ((if r = some codeOK then 1 else 0) + c, tr ++ tr2)

/-- Domain._update_host: push the address delta for one host.  The python
set().difference() calls raise TypeError when the old value is None and
the guard did not fire, rendered as an error; registry errors are caught
and their code returned. -/
def update_host (reg : Registry) (nameserver : String)
    (ipList oldList : Option (List String)) : Except String Nat × List Cmd :=
  if ipList = none || (ipList == some [] && !(oldList = none) && !(oldList == some [])) then
    (.ok codeOK, [])
  else
    match ipList, oldList with
    | some nl, some ol =>
      let added := (nl.filter (fun a => !(ol.contains a))).eraseDups
      let removed := (ol.filter (fun a => !(nl.contains a))).eraseDups
      let req := Cmd.updateHost nameserver added removed
      match reg req with
      | .ok c => (.ok c, [req])
      | .err c => (.ok c, [req])
    | some _, none => (.error "TypeError: NoneType is not iterable", [])
    | none, _ => (.ok codeOK, [])

/-- Domain._update_host_values: run _update_host on every updated entry,
looking the old value up in the previous dictionary; a result code other
than success or object-exists is only logged. -/
def update_host_values (reg : Registry) :
    List (String × List String) → NsDict → Except String Unit × List Cmd
  | [], _ => (.ok (), [])
  | (h, nl) :: rest, prev =>
    let old := (dictGet prev h).join
    let (r, tr) := update_host reg h (some nl) old
    match r with
    | .error e => (.error e, tr)
    | .ok _ =>
      let (r2, tr2) := update_host_values reg rest prev
      (r2, tr ++ tr2)

/-- Domain._new_host_values: create each new host (success or
object-exists both count as created), then attach it to the domain,
counting entries whose attachment send did not raise. -/
def new_host_values (reg : Registry) (domainName : String) :
    NsDict → Nat × List Cmd
  | [] => (0, [])
  | (k, v) :: rest =>
    let (code, tr) := create_host reg k v
    let (cnt, tr2) :=
      if code = codeOK ∨ code = codeObjectExists then
        let req := Cmd.updateDomainAddHost domainName k
        match reg req with
        | .ok _ => (1, tr ++ [req])
        | .err _ => (0, tr ++ [req])
      else (0, tr)
    let (c2, tr3) := new_host_values reg domainName rest
    (cnt + c2, tr2 ++ tr3)

/-- Observable outcome of one call to the nameservers setter: the raised
error if any, whether the current nameservers were consulted, the
commands sent, the resulting lifecycle state, and the computed effective
nameserver total when the call reached that computation. -/
structure SetterOut where
  err : Option String
  fetched : Bool
  trace : List Cmd
  finalState : DState
  total : Option Int
deriving DecidableEq, Repr

/-- The nameservers setter of Domain: reject more than 13 hosts before
anything else, diff current against desired, apply deletions then
updates then creations, recompute the effective total and drive the
lifecycle transition, swallowing transition failures. -/
def nameservers_setter (reg : Registry) (validIp : String → Bool) (domainName : String)
    (current : List (String × List String)) (hosts : List Host) (st : DState) : SetterOut :=
  if hosts.length > 13 then
    ⟨some "Too many hosts provided, you may not have more than 13 nameservers.",
      false, [], st, none⟩
  else
    match getNameserverChanges validIp domainName current hosts with
    | .error e => ⟨some e, true, [], st, none⟩
    | .ok (dl, ul, nv, prevDict) =>
      let (dCount, tr1) := deleted_host_values reg domainName dl
      match update_host_values reg ul prevDict with
      | (.error e, tr2) => ⟨some e, true, tr1 ++ tr2, st, none⟩
      | (.ok _, tr2) =>
        let (cCount, tr3) := new_host_values reg domainName nv
        let total : Int := (prevDict.length : Int) - (dCount : Int) + (cCount : Int)
        let st2 :=
          if total < 2 then (if st = DState.ready then DState.dnsNeeded else st)
          else if total ≤ 13 then (if st = DState.dnsNeeded then DState.ready else st)
          else st
        ⟨none, true, tr1 ++ tr2 ++ tr3, st2, some total⟩

/-- A registry oracle on which every command succeeds. -/
def regAllOk : Registry := fun _ => .ok codeOK

/-- An ip-validity oracle accepting every literal. -/
def allIp : String → Bool := fun _ => true

/-- Whether the detach-and-delete sequence for one deleted host completed
successfully, as counted by _deleted_host_values. -/
def delHostSuccess (reg : Registry) (domainName : String) (h : String) : Bool :=
  (delete_host reg domainName h).1 == some codeOK

/-- Whether the create-and-attach sequence for one new host completed
successfully, as counted by _new_host_values. -/
def newHostSuccess (reg : Registry) (domainName : String)
    (p : String × Option (List String)) : Bool :=
  ((create_host reg p.1 p.2).1 == codeOK || (create_host reg p.1 p.2).1 == codeObjectExists) &&
    (match reg (Cmd.updateDomainAddHost domainName p.1) with
     | .ok _ => true
     | .err _ => false)

/-- Contact roles of PublicContact.ContactTypeChoices. -/
inductive ContactType where
  | registrant
  | administrative
  | technical
  | security
deriving DecidableEq, Repr

/-- Render a role the way the python code passes contact.contact_type into
a DomainContact. -/
def ContactType.asString : ContactType → String
  | .registrant => "registrant"
  | .administrative => "administrative"
  | .technical => "technical"
  | .security => "security"

/-- One row of the local PublicContact store with the fields the contact
reconciler reads. -/
structure PublicContactRec where
  registry_id : String
  contact_type : ContactType
  email : String
  domain : String
deriving DecidableEq, Repr

/-- The local Django object store of PublicContact rows. -/
abbrev Store := List PublicContactRec

/-- Observable events of the contact reconciler: a registry command sent,
or a local store row deleted or inserted. -/
inductive Ev where
  | cmd (c : Cmd)
  | storeDelete (registryId : String)
  | storeInsert (registryId : String)
deriving DecidableEq, Repr

/-- Modelled from the spec: the well-known default security contact email
of PublicContact.get_default_security (public_contact.py is not among the
sources); the spec only requires it to be a fixed non-empty default. -/
def defaultSecurityEmail : String := "registrar@dotgov.gov"

/-- Modelled from the spec: default email of the generated registrant
contact (public_contact.py is not among the sources). -/
def defaultRegistrantEmail : String := "registrant@dotgov.gov"

/-- Modelled from the spec: default email of the default technical
contact (public_contact.py is not among the sources). -/
def defaultTechnicalEmail : String := "technical@dotgov.gov"

/-- Modelled from the spec: default email of the default administrative
contact (public_contact.py is not among the sources). -/
def defaultAdminEmail : String := "administrative@dotgov.gov"

/-- Django row save keyed by registry id: replace the row with the same
registry id, append otherwise. -/
def storeSave (st : Store) (c : PublicContactRec) : Store :=
  if st.any (fun r => r.registry_id == c.registry_id) then
    st.map (fun r => if r.registry_id == c.registry_id then c else r)
  else st ++ [c]

/-- Django row delete keyed by registry id. -/
def storeDeleteId (st : Store) (id : String) : Store :=
  st.filter (fun r => !(r.registry_id == id))

/-- Django QuerySet.get: succeeds exactly when the filtered set is a
singleton. -/
def qsGet (l : Store) : Except String PublicContactRec :=
  match l with
  | [r] => .ok r
  | [] => .error "DoesNotExist"
  | _ => .error "MultipleObjectsReturned"

/-- Domain._make_contact_in_registry: send CreateContact; success returns
COMMAND_COMPLETED_SUCCESSFULLY, a RegistryError is logged and its code
returned. -/
def make_contact_in_registry (reg : Registry) (c : PublicContactRec) : Nat × List Ev :=
  let req := Cmd.createContact c.registry_id c.email
  match reg req with
  | .ok _ => (codeOK, [Ev.cmd req])
  | .err code => (code, [Ev.cmd req])

/-- The UpdateDomain command built by _update_domain_with_contact: the
add form, overwritten by the rem form when rem is set. -/
def updateDomainContactCmd (domainName : String) (c : PublicContactRec) (rem : Bool) : Cmd :=
  if rem then Cmd.updateDomainRemContact domainName c.registry_id c.contact_type.asString
  else Cmd.updateDomainAddContact domainName c.registry_id c.contact_type.asString

/-- Domain._update_domain_with_contact: add or remove a contact
association on the domain; a RegistryError is logged and re-raised as a
generic exception. -/
def update_domain_with_contact (reg : Registry) (domainName : String)
    (c : PublicContactRec) (rem : Bool) : Except String Unit × List Ev :=
  match reg (updateDomainContactCmd domainName c rem) with
  | .ok _ => (.ok (), [Ev.cmd (updateDomainContactCmd domainName c rem)])
  | .err _ =>
    ((.error ("Cannot " ++ (if rem then "remove" else "add") ++
      " the contact of type " ++ c.contact_type.asString)),
      [Ev.cmd (updateDomainContactCmd domainName c rem)])

/-- Domain._update_epp_contact: send UpdateContact; a RegistryError is
logged and swallowed. -/
def update_epp_contact (reg : Registry) (c : PublicContactRec) : List Ev :=
  let req := Cmd.updateContact c.registry_id c.email
  match reg req with
  | .ok _ => [Ev.cmd req]
  | .err _ => [Ev.cmd req]

/-- Domain._add_registrant_to_existing_domain: send UpdateDomain changing
the registrant reference; a RegistryError is logged and swallowed. -/
def add_registrant_to_existing_domain (reg : Registry) (domainName : String)
    (c : PublicContactRec) : List Ev :=
  let req := Cmd.updateDomainRegistrant domainName c.registry_id
  match reg req with
  | .ok _ => [Ev.cmd req]
  | .err _ => [Ev.cmd req]

/-- Outcome of one contact reconciler operation: the raised error if any,
the local store afterwards (store rows written before a failure persist,
as Django commits them eagerly), and the events that happened. -/
structure COut where
  err : Option String
  store : Store
  events : List Ev
deriving DecidableEq, Repr

/-- The conflicting-contact removal block of _set_singleton_contact:
when another contact of the same type is bound, look it up (QuerySet.get),
then for the registrant role delete it locally and change the registrant
reference remotely (errors swallowed), and for every other role detach it
remotely (errors re-raised) and then delete it locally.  Events exclude
the CreateContact already sent by the caller. -/
def ssc_removal (reg : Registry) (domainName : String) (st : Store)
    (c : PublicContactRec) (others : Store) : COut :=
  if ¬others.isEmpty then
    match qsGet others with
    | .error e => ⟨some e, st, []⟩
    | .ok existing_contact =>
      if c.contact_type = ContactType.registrant then
        ⟨none, storeDeleteId st existing_contact.registry_id,
          [Ev.storeDelete existing_contact.registry_id] ++
            add_registrant_to_existing_domain reg domainName c⟩
      else
        let (r, ev2) := update_domain_with_contact reg domainName existing_contact true
        match r with
        | .error e => ⟨some e, st, ev2⟩
        | .ok _ =>
          ⟨none, storeDeleteId st existing_contact.registry_id,
            ev2 ++ [Ev.storeDelete existing_contact.registry_id]⟩
  else ⟨none, st, []⟩

/-- The final attach-or-update block of _set_singleton_contact: attach
the new contact when it was newly created and is not the registrant,
update the existing remote contact when it already existed with a changed
email, and for the empty-email security case detach and delete the
current contact and save a fresh default security contact, re-entering
the reconciler through the given continuation. -/
def ssc_finish (reg : Registry) (domainName : String) (st2 : Store)
    (c : PublicContactRec) (alreadyExistsInRegistry : Bool) (freshSecId : String)
    (recurse : Store → PublicContactRec → COut) : COut :=
  if ¬(c.contact_type = ContactType.security ∧ c.email = "") then
    if ¬(alreadyExistsInRegistry = true) ∧ ¬(c.contact_type = ContactType.registrant) then
      let (r, ev3) := update_domain_with_contact reg domainName c false
      match r with
      | .error e => ⟨some e, st2, ev3⟩
      | .ok _ => ⟨none, st2, ev3⟩
    else if alreadyExistsInRegistry then
      match qsGet (st2.filter (fun r => r.registry_id == c.registry_id)) with
      | .error e => ⟨some e, st2, []⟩
      | .ok current_contact =>
        if current_contact.email ≠ c.email then
          ⟨none, st2, update_epp_contact reg c⟩
        else ⟨none, st2, []⟩
    else ⟨none, st2, []⟩
  else
    match qsGet (st2.filter (fun r => r.registry_id == c.registry_id)) with
    | .error e => ⟨some e, st2, []⟩
    | .ok current_contact =>
      if current_contact.email ≠ defaultSecurityEmail then
        let (r, ev3) := update_domain_with_contact reg domainName current_contact true
        match r with
        | .error e => ⟨some e, st2, ev3⟩
        | .ok _ =>
          let st3 := storeDeleteId st2 current_contact.registry_id
          let secDefault : PublicContactRec :=
            ⟨freshSecId, ContactType.security, defaultSecurityEmail, domainName⟩
          let inner := recurse (storeSave st3 secDefault) secDefault
          ⟨inner.err, inner.store,
            ev3 ++ [Ev.storeDelete current_contact.registry_id,
              Ev.storeInsert freshSecId] ++ inner.events⟩
      else ⟨none, st2, []⟩

/-- Domain._set_singleton_contact.  freshSecId is the registry id the
PublicContact model generates for the replacement default security
contact in the clear-security branch; that branch saves the default,
which re-enters this function through the security setter, hence the
fuel parameter. -/
def set_singleton_contact : Nat → Registry → String → Store → PublicContactRec →
    ContactType → String → COut
  | 0, _, _, st, _, _, _ => ⟨some "recursion fuel exhausted", st, []⟩
  | fuel + 1, reg, domainName, st, c, expectedType, freshSecId =>
    if expectedType ≠ c.contact_type then
      ⟨some "Cannot set a contact with a different contact type", st, []⟩
    else
      let others := st.filter (fun r =>
        !(r.registry_id == c.registry_id) && r.domain == domainName &&
          r.contact_type == c.contact_type)
      let (errorCode, ev1) := make_contact_in_registry reg c
      let alreadyExistsInRegistry := errorCode == codeObjectExists
      if ¬(alreadyExistsInRegistry = true) ∧ errorCode ≠ codeOK then
        ⟨some "Unable to add contact to registry", st, ev1⟩
      else
        let removal := ssc_removal reg domainName st c others
        match removal.err with
        | some e => ⟨some e, removal.store, ev1 ++ removal.events⟩
        | none =>
          let fin := ssc_finish reg domainName removal.store c alreadyExistsInRegistry
            freshSecId
            (fun st4 sd => set_singleton_contact fuel reg domainName st4 sd
              ContactType.security freshSecId)
          ⟨fin.err, fin.store, ev1 ++ removal.events ++ fin.events⟩

/-- The administrative_contact setter of Domain, which (unlike the other
three roles) pushes the contact and attaches it without the singleton
logic, ignoring the creation result code. -/
def administrative_contact_setter (reg : Registry) (domainName : String) (st : Store)
    (c : PublicContactRec) : COut :=
  if c.contact_type ≠ ContactType.administrative then
    ⟨some "Cannot set a registrant contact with a different contact type", st, []⟩
  else
    let (_, ev1) := make_contact_in_registry reg c
    let (r, ev2) := update_domain_with_contact reg domainName c false
    match r with
    | .error e => ⟨some e, st, ev1 ++ ev2⟩
    | .ok _ => ⟨none, st, ev1 ++ ev2⟩

/-- Modelled from the spec: PublicContact.save (public_contact.py is not
among the sources) commits the row locally and then triggers the domain
contact setter matching the contact type, as the domain.py docstrings
describe. -/
def publicContact_save (fuel : Nat) (reg : Registry) (domainName : String) (st : Store)
    (c : PublicContactRec) (freshSecId : String) : COut :=
  let st1 := storeSave st c
  let ev0 := [Ev.storeInsert c.registry_id]
  match c.contact_type with
  | ContactType.administrative =>
    let out := administrative_contact_setter reg domainName st1 c
    ⟨out.err, out.store, ev0 ++ out.events⟩
  | _ =>
    let out := set_singleton_contact fuel reg domainName st1 c c.contact_type freshSecId
    ⟨out.err, out.store, ev0 ++ out.events⟩

/-- Domain.addRegistrant: save the generated default registrant contact,
which runs the registrant contact setter. -/
def addRegistrant (fuel : Nat) (reg : Registry) (domainName : String) (st : Store)
    (registrantId freshSecId : String) : COut :=
  publicContact_save fuel reg domainName st
    ⟨registrantId, ContactType.registrant, defaultRegistrantEmail, domainName⟩ freshSecId

/-- Domain.addAllDefaults: save the default security, technical and
administrative contacts in that order, each save running its setter. -/
def addAllDefaults (fuel : Nat) (reg : Registry) (domainName : String) (st : Store)
    (secId techId adminId freshSecId : String) : COut :=
  let o1 := publicContact_save fuel reg domainName st
    ⟨secId, ContactType.security, defaultSecurityEmail, domainName⟩ freshSecId
  match o1.err with
  | some e => ⟨some e, o1.store, o1.events⟩
  | none =>
    let o2 := publicContact_save fuel reg domainName o1.store
      ⟨techId, ContactType.technical, defaultTechnicalEmail, domainName⟩ freshSecId
    match o2.err with
    | some e => ⟨some e, o2.store, o1.events ++ o2.events⟩
    | none =>
      let o3 := publicContact_save fuel reg domainName o2.store
        ⟨adminId, ContactType.administrative, defaultAdminEmail, domainName⟩ freshSecId
      ⟨o3.err, o3.store, o1.events ++ o2.events ++ o3.events⟩

/-- Outcome of the materialize transition: raised error if any, resulting
lifecycle state, resulting store, events. -/
structure MatOut where
  err : Option String
  state : DState
  store : Store
  events : List Ev
deriving DecidableEq, Repr

/-- Domain.dns_needed_from_unknown (materialize).  The django-fsm guard
(modelled from the spec: transition legal only from its declared source
state, body failure leaves the state unchanged) wraps: add the generated
registrant, send CreateDomain treating OBJECT_EXISTS as success, then add
the three default contacts. -/
def dns_needed_from_unknown (fuel : Nat) (reg : Registry) (domainName : String)
    (st : Store) (state : DState)
    (registrantId secId techId adminId freshSecId : String) : MatOut :=
  if state ≠ DState.unknown then ⟨some "TransitionNotAllowed", state, st, []⟩
  else
    let o1 := addRegistrant fuel reg domainName st registrantId freshSecId
    match o1.err with
    | some e => ⟨some e, state, o1.store, o1.events⟩
    | none =>
      let req := Cmd.createDomain domainName registrantId
      let evd := [Ev.cmd req]
      match reg req with
      | .err c =>
        if c ≠ codeObjectExists then
          ⟨some "CreateDomain failed", state, o1.store, o1.events ++ evd⟩
        else
          let o2 := addAllDefaults fuel reg domainName o1.store secId techId adminId freshSecId
          match o2.err with
          | some e => ⟨some e, state, o2.store, o1.events ++ evd ++ o2.events⟩
          | none => ⟨none, DState.dnsNeeded, o2.store, o1.events ++ evd ++ o2.events⟩
      | .ok _ =>
        let o2 := addAllDefaults fuel reg domainName o1.store secId techId adminId freshSecId
        match o2.err with
        | some e => ⟨some e, state, o2.store, o1.events ++ evd ++ o2.events⟩
        | none => ⟨none, DState.dnsNeeded, o2.store, o1.events ++ evd ++ o2.events⟩

/-- Event class test: is the event a CreateContact command. -/
def isCreateContactEv : Ev → Bool
  | Ev.cmd (Cmd.createContact _ _) => true
  | _ => false

/-- Event class test: is the event a CreateDomain command. -/
def isCreateDomainEv : Ev → Bool
  | Ev.cmd (Cmd.createDomain _ _) => true
  | _ => false

/-- The per-instance property cache of Domain: an association list from
property names to cached values.  An absent key means never fetched or
fetched-as-null, which the source keeps distinct from a stored value. -/
abbrev CacheMap (α : Type) := List (String × α)

/-- Cache lookup by property name. -/
def cacheLookup {α : Type} (c : CacheMap α) (k : String) : Option α :=
  (c.find? (fun p => p.1 == k)).map (fun p => p.2)

/-- Python dict assignment on the cache snapshot. -/
def cacheAssign {α : Type} (c : CacheMap α) (k : String) (v : α) : CacheMap α :=
  if c.any (fun p => p.1 == k) then
    c.map (fun p => if p.1 == k then (k, v) else p)
  else c ++ [(k, v)]

/-- The fields the _fetch_cache snapshot extracts from an InfoDomain
response, each possibly absent (getattr default Ellipsis in the source). -/
structure InfoData (α : Type) where
  auth_info : Option α
  contacts : Option α
  cr_date : Option α
  ex_date : Option α
  hosts : Option α
  name : Option α
  registrant : Option α
  statuses : Option α
  tr_date : Option α
  up_date : Option α

/-- Environment of one _fetch_cache run: the outcome of
_get_or_create_domain, and the external projections the function applies
to raw values (the statuses rewrite, the list test, and the per-item
contact and host resolution round trips). -/
structure FetchEnv (α : Type) where
  infoResult : Except Nat (InfoData α)
  mapStatuses : α → α
  isNonemptyList : α → Bool
  resolveContacts : α → α
  resolveHosts : α → α

/-- Domain._fetch_cache: pull the scalar bundle, drop null fields, rewrite
statuses, then optionally resolve contact or host detail, each resolution
retaining the other kind of previously cached detail; a RegistryError
from the info call is logged and leaves the cache unchanged. -/
def fetch_cache {α : Type} (env : FetchEnv α) (fetchHosts fetchContacts : Bool)
    (cache : CacheMap α) : CacheMap α :=
  match env.infoResult with
  | .error _ => cache
  | .ok data =>
    let base : List (String × Option α) :=
      [("auth_info", data.auth_info), ("_contacts", data.contacts),
       ("cr_date", data.cr_date), ("ex_date", data.ex_date),
       ("_hosts", data.hosts), ("name", data.name),
       ("registrant", data.registrant), ("statuses", data.statuses),
       ("tr_date", data.tr_date), ("up_date", data.up_date)]
    let cleaned : CacheMap α := base.filterMap (fun p => p.2.map (fun v => (p.1, v)))
    let cleaned := cleaned.map (fun p =>
      if p.1 == "statuses" then (p.1, env.mapStatuses p.2) else p)
    let oldHosts := cacheLookup cache "hosts"
    let oldContacts := cacheLookup cache "contacts"
    let cleaned :=
      if fetchContacts then
        match cacheLookup cleaned "_contacts" with
        | some v =>
          if env.isNonemptyList v then
            let withContacts := cacheAssign cleaned "contacts" (env.resolveContacts v)
            match oldHosts with
            | some h => cacheAssign withContacts "hosts" h
            | none => withContacts
          else cleaned
        | none => cleaned
      else cleaned
    let cleaned :=
      if fetchHosts then
        match cacheLookup cleaned "_hosts" with
        | some v =>
          if env.isNonemptyList v then
            let withHosts := cacheAssign cleaned "hosts" (env.resolveHosts v)
            match oldContacts with
            | some h => cacheAssign withHosts "contacts" h
            | none => withHosts
          else cleaned
        | none => cleaned
      else cleaned
    cleaned

/-- Domain._get_property: fetch the full snapshot when the property is
absent (resolving host or contact detail exactly when that property was
requested), then return the cached value or raise KeyError. -/
def get_property {α : Type} (env : FetchEnv α) (cache : CacheMap α) (p : String) :
    Except String α × CacheMap α :=
  let cache2 :=
    if (cacheLookup cache p).isSome then cache
    else fetch_cache env (p == "hosts") (p == "contacts") cache
  match cacheLookup cache2 p with
  | some v => (.ok v, cache2)
  | none => (.error ("Requested key " ++ p ++ " was not found in registry cache."), cache2)

/-- Domain.Cache.setter dunder: run the property setter, then invalidate
the whole cache; an exception from the setter propagates before the
invalidation line runs, leaving the cache as it was. -/
def cache_descriptor_set {E σ : Type} (run : Except E σ) (cache : CacheMap Nat) :
    Option E × CacheMap Nat :=
  match run with
  | .error e => (some e, cache)
  | .ok _ => (none, [])

/-- The result of a nameservers setter call viewed as the python raise--
or-return outcome consumed by the cache descriptor. -/
def setterRun (o : SetterOut) : Except String Unit :=
  match o.err with
  | some e => .error e
  | none => .ok ()

/-- Assigning domain.nameservers through the Cache descriptor. -/
def domain_set_nameservers (reg : Registry) (validIp : String → Bool)
    (domainName : String) (current : List (String × List String)) (hosts : List Host)
    (st : DState) (cache : CacheMap Nat) : Option String × CacheMap Nat :=
  cache_descriptor_set (setterRun (nameservers_setter reg validIp domainName current hosts st))
    cache

/-- The result of a singleton-contact setter call viewed as the python
raise-or-return outcome consumed by the cache descriptor. -/
def contactRun (o : COut) : Except String Unit :=
  match o.err with
  | some e => .error e
  | none => .ok ()

/-- Assigning domain.security_contact through the Cache descriptor. -/
def domain_set_security_contact (fuel : Nat) (reg : Registry) (domainName : String)
    (st : Store) (c : PublicContactRec) (freshSecId : String) (cache : CacheMap Nat) :
    Option String × CacheMap Nat :=
  cache_descriptor_set
    (contactRun (set_singleton_contact fuel reg domainName st c ContactType.security freshSecId))
    cache

/-- One element of the cached hosts list consumed by the nameservers
getter: the dict built by _fetch_hosts always carries the name, and
carries the address list only when the InfoHost response had one (a null
is stripped from the dict). -/
structure HostEntry where
  name : String
  addrs : Option (List String)
deriving DecidableEq, Repr

/-- The tuple-building loop of the nameservers getter: turn each host
dict into a (name, addrs) tuple, raising KeyError at the first host dict
without an addrs key. -/
def hostTupleLoop : List HostEntry → Except String (List (String × List String))
  | [] => .ok []
  | h :: rest =>
    match h.addrs with
    | none => .error "KeyError: addrs"
    | some a => do
      let tl ← hostTupleLoop rest
      .ok ((h.name, a) :: tl)

/-- The nameservers getter of Domain: any exception from the hosts
property fetch is caught and turned into the empty list; afterwards each
host dict is turned into a (name, addrs) tuple, where a missing addrs key
raises an uncaught KeyError. -/
def nameservers_getter (hostsResult : Except String (List HostEntry)) :
    Except String (List (String × List String)) :=
  match hostsResult with
  | .error _ => .ok []
  | .ok hosts => hostTupleLoop hosts

namespace FSM

/-- The named lifecycle transitions declared on Domain. -/
inductive Tr where
  | dns_needed_from_unknown
  | place_client_hold
  | revert_client_hold
  | deleted
  | ready
  | dns_needed
deriving DecidableEq, Repr

/-- Declared source states of each transition, from the decorators in
domain.py. -/
def sources : Tr → List DState
  | .dns_needed_from_unknown => [DState.unknown]
  | .place_client_hold => [DState.ready, DState.onHold]
  | .revert_client_hold => [DState.ready, DState.onHold]
  | .deleted => [DState.onHold]
  | .ready => [DState.dnsNeeded]
  | .dns_needed => [DState.ready]

/-- Declared target state of each transition, from the decorators in
domain.py. -/
def target : Tr → DState
  | .dns_needed_from_unknown => DState.dnsNeeded
  | .place_client_hold => DState.onHold
  | .revert_client_hold => DState.ready
  | .deleted => DState.deleted
  | .ready => DState.ready
  | .dns_needed => DState.dnsNeeded

/-- Modelled from the spec: the django-fsm guard on a protected FSMField,
mapped (as the spec directs) to a transition table validated at call
time: legal from a declared source state, a distinct error otherwise. -/
def applyTransition (t : Tr) (s : DState) : Except String DState :=
  if s ∈ sources t then .ok (target t) else .error "TransitionNotAllowed"

/-- The state actually stored after attempting a transition: unchanged
when the guard rejected it. -/
def runTransition (t : Tr) (s : DState) : DState :=
  match applyTransition t s with
  | .ok s2 => s2
  | .error _ => s

end FSM

/-- A registry oracle on which creating a contact fails with a generic
error code while every other command succeeds. -/
def regFailCreateContact : Registry := fun c =>
  match c with
  | Cmd.createContact _ _ => .err 2400
  | _ => .ok codeOK

/-- A registry oracle on which detaching a host from a domain fails with
OBJECT_ASSOCIATION_PROHIBITS_OPERATION while every other command
succeeds. -/
def regDetachProhibited : Registry := fun c =>
  match c with
  | Cmd.updateDomainRemHost _ _ => .err codeAssociationProhibits
  | _ => .ok codeOK

/-- A concrete fetch environment over Nat-valued properties: the info
call succeeds with auth_info, cr_date and name present and everything
else null. -/
def envCrDate : FetchEnv Nat where
  infoResult := Except.ok
    { auth_info := some 1, contacts := none, cr_date := some 2, ex_date := none,
      hosts := none, name := some 3, registrant := none, statuses := none,
      tr_date := none, up_date := none }
  mapStatuses := id
  isNonemptyList := fun _ => true
  resolveContacts := id
  resolveHosts := id

/- ------------------------------------------------------------------ -/
/- Theorems.  Helper lemmas come first, claim theorems afterwards.     -/
/- ------------------------------------------------------------------ -/

theorem dictHasKey_iff (dic : NsDict) (k : String) :
    dictHasKey dic k = true ↔ k ∈ dic.map Prod.fst := by
  simp [dictHasKey, List.any_eq_true, List.mem_map]

theorem dictInsert_keys_mem (dic : NsDict) (k : String) (v : Option (List String))
    (h : dictHasKey dic k = true) :
    (dictInsert dic k v).map Prod.fst = dic.map Prod.fst := by
  unfold dictInsert
  rw [if_pos h, List.map_map]
  apply List.map_congr_left
  intro p _
  by_cases hpk : (p.1 == k) = true
  · simp only [Function.comp, hpk, if_pos]
    exact (beq_iff_eq.mp hpk).symm
  · simp [Function.comp, hpk]

theorem dictInsert_keys_not_mem (dic : NsDict) (k : String) (v : Option (List String))
    (h : dictHasKey dic k = false) :
    (dictInsert dic k v).map Prod.fst = dic.map Prod.fst ++ [k] := by
  unfold dictInsert
  rw [if_neg (by simp [h])]
  simp

theorem convertFold_keys_nodup (l : List Host) (dic : NsDict)
    (hn : (dic.map Prod.fst).Nodup) :
    ((l.foldl (fun d h => dictInsert d h.name h.addrs) dic).map Prod.fst).Nodup := by
  induction l generalizing dic with
  | nil => exact hn
  | cons h rest ih =>
    simp only [List.foldl_cons]
    apply ih
    by_cases hk : dictHasKey dic h.name
    · rw [dictInsert_keys_mem dic h.name h.addrs hk]; exact hn
    · rw [dictInsert_keys_not_mem dic h.name h.addrs (by simpa using hk)]
      refine List.Nodup.append hn (List.nodup_singleton _) ?_
      intro x hx hxk
      have : x = h.name := by simpa using hxk
      subst this
      exact hk ((dictHasKey_iff dic h.name).mpr hx)

theorem convert_keys_nodup (l : List Host) :
    ((convert_list_to_dict l).map Prod.fst).Nodup :=
  convertFold_keys_nodup l [] (by simp)

theorem dictInsert_values (dic : NsDict) (k : String) (v : Option (List String))
    (P : Option (List String) → Prop)
    (hdic : ∀ p ∈ dic, P p.2) (hv : P v) :
    ∀ p ∈ dictInsert dic k v, P p.2 := by
  intro p hp
  unfold dictInsert at hp
  by_cases hk : dictHasKey dic k
  · rw [if_pos hk] at hp
    obtain ⟨q, hq, he⟩ := List.mem_map.mp hp
    by_cases hq1 : q.1 == k
    · rw [if_pos hq1] at he
      rw [← he]
      exact hv
    · rw [if_neg hq1] at he
      rw [← he]
      exact hdic q hq
  · rw [if_neg hk] at hp
    rcases List.mem_append.mp hp with h1 | h2
    · exact hdic p h1
    · have : p = (k, v) := by simpa using h2
      rw [this]
      exact hv

theorem convertFold_values (l : List Host) (dic : NsDict)
    (P : Option (List String) → Prop)
    (hdic : ∀ p ∈ dic, P p.2) (hl : ∀ h ∈ l, P h.addrs) :
    ∀ p ∈ l.foldl (fun d h => dictInsert d h.name h.addrs) dic, P p.2 := by
  induction l generalizing dic with
  | nil => exact hdic
  | cons h rest ih =>
    simp only [List.foldl_cons]
    exact ih (dictInsert dic h.name h.addrs)
      (dictInsert_values dic h.name h.addrs P hdic (hl h (List.mem_cons_self h rest)))
      (fun x hx => hl x (List.mem_cons_of_mem h hx))

theorem convert_values_some (current : List (String × List String)) :
    ∀ p ∈ convert_list_to_dict (current.map (fun p => (⟨p.1, some p.2⟩ : Host))),
      p.2.isSome = true := by
  apply convertFold_values _ [] (fun v => v.isSome = true) (by simp)
  intro h hh
  obtain ⟨q, _, he⟩ := List.mem_map.mp hh
  rw [← he]
  rfl

theorem dictInsert_length_mem (dic : NsDict) (k : String) (v : Option (List String))
    (h : dictHasKey dic k = true) :
    (dictInsert dic k v).length = dic.length := by
  unfold dictInsert
  rw [if_pos h]
  simp

theorem dictInsert_length_not_mem (dic : NsDict) (k : String) (v : Option (List String))
    (h : dictHasKey dic k = false) :
    (dictInsert dic k v).length = dic.length + 1 := by
  unfold dictInsert
  rw [if_neg (by simp [h])]
  simp

theorem convertFold_length (l : List Host) (dic : NsDict)
    (hnd : (l.map Host.name).Nodup)
    (hdisj : ∀ h ∈ l, dictHasKey dic h.name = false) :
    (l.foldl (fun d h => dictInsert d h.name h.addrs) dic).length = dic.length + l.length := by
  induction l generalizing dic with
  | nil => simp
  | cons h rest ih =>
    simp only [List.foldl_cons]
    have hnd2 : (h.name :: rest.map Host.name).Nodup := by simpa using hnd
    have hnotin : h.name ∉ rest.map Host.name := (List.nodup_cons.mp hnd2).1
    have hrestnd : (rest.map Host.name).Nodup := (List.nodup_cons.mp hnd2).2
    have hk : dictHasKey dic h.name = false := hdisj h (List.mem_cons_self h rest)
    have hrest : ∀ x ∈ rest, dictHasKey (dictInsert dic h.name h.addrs) x.name = false := by
      intro x hx
      have hkeys := dictInsert_keys_not_mem dic h.name h.addrs hk
      rw [← Bool.not_eq_true]
      intro hcontra
      have hmem := (dictHasKey_iff _ x.name).mp hcontra
      rw [hkeys] at hmem
      rcases List.mem_append.mp hmem with h1 | h2
      · exact absurd ((dictHasKey_iff dic x.name).mpr h1)
          (by simp [hdisj x (List.mem_cons_of_mem h hx)])
      · have hxh : x.name = h.name := by simpa using h2
        exact hnotin (hxh ▸ List.mem_map_of_mem Host.name hx)
    rw [ih (dictInsert dic h.name h.addrs) hrestnd hrest]
    rw [dictInsert_length_not_mem dic h.name h.addrs hk]
    simp only [List.length_cons]
    omega

theorem convert_length (current : List (String × List String))
    (hnd : (current.map Prod.fst).Nodup) :
    (convert_list_to_dict (current.map (fun p => (⟨p.1, some p.2⟩ : Host)))).length =
      current.length := by
  have h1 : ((current.map (fun p => (⟨p.1, some p.2⟩ : Host))).map Host.name).Nodup := by
    simpa [List.map_map, Function.comp] using hnd
  have := convertFold_length (current.map (fun p => (⟨p.1, some p.2⟩ : Host))) [] h1
    (by intro h _; rfl)
  simpa using this

theorem dictGet_of_mem_nodup (dic : NsDict) (k : String) (v : Option (List String))
    (hnd : (dic.map Prod.fst).Nodup) (hmem : (k, v) ∈ dic) :
    dictGet dic k = some v := by
  induction dic with
  | nil => cases hmem
  | cons p rest ih =>
    have hnd2 : (p.1 :: rest.map Prod.fst).Nodup := by simpa using hnd
    rcases List.mem_cons.mp hmem with he | hr
    · subst he
      simp [dictGet, List.find?]
    · have hne : ¬((p.1 == k) = true) := by
        intro hc
        have hk : p.1 = k := beq_iff_eq.mp hc
        exact (List.nodup_cons.mp hnd2).1 (hk ▸ List.mem_map_of_mem Prod.fst hr)
      have := ih (List.nodup_cons.mp hnd2).2 hr
      simpa [dictGet, List.find?, hne] using this

theorem dictGet_mem (dic : NsDict) (k : String) (v : Option (List String))
    (h : dictGet dic k = some v) : (k, v) ∈ dic := by
  unfold dictGet at h
  cases hf : dic.find? (fun p => p.1 == k) with
  | none => rw [hf] at h; cases h
  | some p =>
    rw [hf] at h
    have hp := List.mem_of_find?_eq_some hf
    have hk : p.1 = k := beq_iff_eq.mp (List.find?_eq_some.mp hf).1
    have hv : p.2 = v := by injection h
    have : p = (k, v) := Prod.ext hk hv
    rw [← this]
    exact hp

theorem exbind_ok {α β : Type} (a : α) (f : α → Except String β) :
    (Except.ok a >>= f) = f a := rfl

theorem exbind_error {α β : Type} (e : String) (f : α → Except String β) :
    ((Except.error e : Except String α) >>= f) = Except.error e := rfl

theorem checkNewLoop_ok (validIp : String → Bool) (d : String) (l : NsDict)
    (h : checkNewLoop validIp d l = .ok ()) :
    ∀ p ∈ l, checkHostIPCombo validIp d p.1 p.2 = .ok () := by
  induction l with
  | nil => intro p hp; cases hp
  | cons q rest ih =>
    rcases q with ⟨hq, ipq⟩
    intro p hp
    simp only [checkNewLoop] at h
    cases hc : checkHostIPCombo validIp d hq ipq with
    | error e => rw [hc, exbind_error] at h; cases h
    | ok u =>
      rw [hc, exbind_ok] at h
      rcases List.mem_cons.mp hp with he | hr
      · subst he
        cases u
        exact hc
      · exact ih h p hr

theorem diffLoop_ok_props (validIp : String → Bool) (d : String) (nd : NsDict)
    (iter : NsDict) (dl : List (String × Option (List String)))
    (ul : List (String × List String))
    (h : diffLoop validIp d nd iter = .ok (dl, ul)) :
    (∀ p ∈ ul, ∃ ol, (p.1, some ol) ∈ iter) ∧
    (∀ h2 ol nl, (h2, some ol) ∈ iter → dictGet nd h2 = some (some nl) →
      setEq nl ol = false → checkHostIPCombo validIp d h2 (some nl) = .ok ()) := by
  induction iter generalizing dl ul with
  | nil =>
    simp only [diffLoop, Except.ok.injEq, Prod.mk.injEq] at h
    obtain ⟨hdl, hul⟩ := h
    subst hdl; subst hul
    exact ⟨fun p hp => absurd hp (List.not_mem_nil p), fun h2 ol nl hm => absurd hm (List.not_mem_nil _)⟩
  | cons q rest ih =>
    rcases q with ⟨hh, addrs⟩
    simp only [diffLoop] at h
    cases hg : dictGet nd hh with
    | none =>
      rw [hg] at h
      cases hrec : diffLoop validIp d nd rest with
      | error e => rw [hrec, exbind_error] at h; cases h
      | ok r =>
        rcases r with ⟨dl2, ul2⟩
        rw [hrec, exbind_ok] at h
        simp only [Except.ok.injEq, Prod.mk.injEq] at h
        obtain ⟨hdl, hul⟩ := h
        subst hdl; subst hul
        obtain ⟨ih1, ih2⟩ := ih dl2 ul2 hrec
        refine ⟨fun p hp => ?_, fun h2 ol nl hm hgn hs => ?_⟩
        · obtain ⟨ol, hol⟩ := ih1 p hp
          exact ⟨ol, List.mem_cons_of_mem _ hol⟩
        · rcases List.mem_cons.mp hm with he | hr
          · have hhh : h2 = hh := congrArg Prod.fst he
            rw [hhh, hg] at hgn
            cases hgn
          · exact ih2 h2 ol nl hr hgn hs
    | some vnew =>
      rw [hg] at h
      cases vnew with
      | none =>
        obtain ⟨ih1, ih2⟩ := ih dl ul h
        refine ⟨fun p hp => ?_, fun h2 ol nl hm hgn hs => ?_⟩
        · obtain ⟨ol, hol⟩ := ih1 p hp
          exact ⟨ol, List.mem_cons_of_mem _ hol⟩
        · rcases List.mem_cons.mp hm with he | hr
          · have hhh : h2 = hh := congrArg Prod.fst he
            rw [hhh, hg] at hgn
            cases hgn
          · exact ih2 h2 ol nl hr hgn hs
      | some nl2 =>
        cases addrs with
        | none => cases h
        | some ol2 =>
          dsimp only at h
          by_cases hse : setEq nl2 ol2 = true
          · rw [if_pos hse] at h
            obtain ⟨ih1, ih2⟩ := ih dl ul h
            refine ⟨fun p hp => ?_, fun h2 ol nl hm hgn hs => ?_⟩
            · obtain ⟨ol, hol⟩ := ih1 p hp
              exact ⟨ol, List.mem_cons_of_mem _ hol⟩
            · rcases List.mem_cons.mp hm with he | hr
              · have hhh : h2 = hh := congrArg Prod.fst he
                have hoo : some ol = some ol2 := congrArg Prod.snd he
                injection hoo with hoo
                rw [hhh, hg] at hgn
                injection hgn with hgn
                injection hgn with hgn
                rw [← hgn, hoo] at hs
                rw [hse] at hs
                cases hs
              · exact ih2 h2 ol nl hr hgn hs
          · rw [if_neg hse] at h
            cases hc : checkHostIPCombo validIp d hh (some nl2) with
            | error e => rw [hc, exbind_error] at h; cases h
            | ok u =>
              rw [hc, exbind_ok] at h
              cases hrec : diffLoop validIp d nd rest with
              | error e => rw [hrec, exbind_error] at h; cases h
              | ok r =>
                rcases r with ⟨dl2, ul2⟩
                rw [hrec, exbind_ok] at h
                simp only [Except.ok.injEq, Prod.mk.injEq] at h
                obtain ⟨hdl, hul⟩ := h
                subst hdl; subst hul
                obtain ⟨ih1, ih2⟩ := ih dl2 ul2 hrec
                refine ⟨fun p hp => ?_, fun h2 ol nl hm hgn hs => ?_⟩
                · rcases List.mem_cons.mp hp with he | hr
                  · subst he
                    exact ⟨ol2, List.mem_cons_self _ _⟩
                  · obtain ⟨ol, hol⟩ := ih1 p hr
                    exact ⟨ol, List.mem_cons_of_mem _ hol⟩
                · rcases List.mem_cons.mp hm with he | hr
                  · have hhh : h2 = hh := congrArg Prod.fst he
                    have hoo : some ol = some ol2 := congrArg Prod.snd he
                    injection hoo with hoo
                    rw [hhh, hg] at hgn
                    injection hgn with hgn
                    injection hgn with hgn
                    cases u
                    rw [hhh, ← hgn]
                    exact hc
                  · exact ih2 h2 ol nl hr hgn hs

theorem checkHostIPCombo_bad (validIp : String → Bool) (d ns : String)
    (ip : Option (List String))
    (hbad : (isSubdomain d ns = true ∧ isEmptyIp ip = true) ∨
            (isSubdomain d ns = false ∧ isEmptyIp ip = false)) :
    checkHostIPCombo validIp d ns ip ≠ .ok () := by
  unfold checkHostIPCombo
  rcases hbad with ⟨h1, h2⟩ | ⟨h1, h2⟩
  · rw [if_pos (by simp [h1, h2])]
    simp
  · rw [if_neg (by simp [h1]), if_pos (by simp [h1, h2])]
    simp

theorem getNameserverChanges_ok_parts (validIp : String → Bool) (d : String)
    (current : List (String × List String)) (hosts : List Host)
    (dl : List (String × Option (List String))) (ul : List (String × List String))
    (nv pv : NsDict)
    (h : getNameserverChanges validIp d current hosts = .ok (dl, ul, nv, pv)) :
    pv = convert_list_to_dict (current.map (fun p => (⟨p.1, some p.2⟩ : Host))) ∧
    nv = newValuesOf (convert_list_to_dict hosts) pv ∧
    diffLoop validIp d (convert_list_to_dict hosts)
      (convert_list_to_dict (current.map (fun p => (⟨p.1, some p.2⟩ : Host)))) = .ok (dl, ul) ∧
    checkNewLoop validIp d nv = .ok () := by
  unfold getNameserverChanges at h
  dsimp only at h
  cases hd : diffLoop validIp d (convert_list_to_dict hosts)
      (convert_list_to_dict (current.map (fun p => (⟨p.1, some p.2⟩ : Host)))) with
  | error e => rw [hd, exbind_error] at h; cases h
  | ok r =>
    rcases r with ⟨dl2, ul2⟩
    rw [hd, exbind_ok] at h
    cases hc : checkNewLoop validIp d (newValuesOf (convert_list_to_dict hosts)
        (convert_list_to_dict (current.map (fun p => (⟨p.1, some p.2⟩ : Host))))) with
    | error e => rw [hc, exbind_error] at h; cases h
    | ok u =>
      rw [hc, exbind_ok] at h
      cases u
      simp only [Except.ok.injEq, Prod.mk.injEq] at h
      obtain ⟨h1, h2, h3, h4⟩ := h
      subst h1; subst h2; subst h3; subst h4
      exact ⟨rfl, rfl, rfl, hc⟩

theorem deleted_host_values_count (reg : Registry) (d : String)
    (l : List (String × Option (List String))) :
    (deleted_host_values reg d l).1 = l.countP (fun p => delHostSuccess reg d p.1) := by
  induction l with
  | nil => rfl
  | cons q rest ih =>
    rcases q with ⟨hq, aq⟩
    rcases hdl : delete_host reg d hq with ⟨r, tr⟩
    rcases hrest : deleted_host_values reg d rest with ⟨c, tr2⟩
    rw [hrest] at ih
    dsimp at ih
    simp only [deleted_host_values, hdl, hrest, List.countP_cons]
    rw [← ih]
    simp only [delHostSuccess, hdl]
    by_cases hr : r = some codeOK
    · simp only [hr, if_pos, beq_self_eq_true, if_true]
      omega
    · rw [if_neg hr]
      have : ((r == some codeOK) = true) = False := by simp [hr]
      simp [this]

theorem new_host_values_count (reg : Registry) (d : String) (l : NsDict) :
    (new_host_values reg d l).1 = l.countP (fun p => newHostSuccess reg d p) := by
  induction l with
  | nil => rfl
  | cons q rest ih =>
    rcases q with ⟨k, v⟩
    rcases hc : create_host reg k v with ⟨code, tr⟩
    rcases hrest : new_host_values reg d rest with ⟨c2, tr3⟩
    rw [hrest] at ih
    dsimp at ih
    simp only [new_host_values, hc, hrest, List.countP_cons]
    rw [← ih]
    simp only [newHostSuccess, hc]
    by_cases hcode : code = codeOK ∨ code = codeObjectExists
    · have hb : (code == codeOK || code == codeObjectExists) = true := by
        rcases hcode with h | h <;> simp [h]
      rw [if_pos hcode]
      cases hreg : reg (Cmd.updateDomainAddHost d k) with
      | ok c3 =>
        simp [hb]
        try omega
      | err c3 =>
        simp [hb]
        try omega
    · have hb : (code == codeOK || code == codeObjectExists) = false := by
        push_neg at hcode
        simp [hcode.1, hcode.2]
      rw [if_neg hcode]
      simp [hb]
      try omega

theorem update_host_some_ok (reg : Registry) (ns : String) (nl ol : List String) :
    ∃ c, (update_host reg ns (some nl) (some ol)).1 = Except.ok c := by
  unfold update_host
  split
  · exact ⟨codeOK, rfl⟩
  · dsimp only
    cases hreg : reg (Cmd.updateHost ns ((nl.filter (fun a => !(ol.contains a))).eraseDups)
        ((ol.filter (fun a => !(nl.contains a))).eraseDups)) with
    | ok c => exact ⟨c, rfl⟩
    | err c => exact ⟨c, rfl⟩

theorem update_host_values_ok (reg : Registry) (ul : List (String × List String))
    (pv : NsDict) (h : ∀ p ∈ ul, ∃ ol, dictGet pv p.1 = some (some ol)) :
    (update_host_values reg ul pv).1 = .ok () := by
  induction ul with
  | nil => rfl
  | cons q rest ih =>
    rcases q with ⟨hq, nlq⟩
    obtain ⟨ol, hol⟩ := h (hq, nlq) (List.mem_cons_self _ _)
    obtain ⟨c, hc⟩ := update_host_some_ok reg hq nlq ol
    rcases hu : update_host reg hq (some nlq) (some ol) with ⟨r, tr⟩
    rw [hu] at hc
    dsimp at hc
    subst hc
    rcases hrest : update_host_values reg rest pv with ⟨r2, tr2⟩
    have hih := ih (fun p hp => h p (List.mem_cons_of_mem _ hp))
    rw [hrest] at hih
    dsimp at hih
    subst hih
    simp only [update_host_values, hol, Option.join, Option.bind, id_eq, hu, hrest]

theorem nameservers_setter_ok_char (reg : Registry) (validIp : String → Bool) (d : String)
    (current : List (String × List String)) (hosts : List Host) (st : DState)
    (dl : List (String × Option (List String))) (ul : List (String × List String))
    (nv pv : NsDict)
    (hlen : ¬ hosts.length > 13)
    (hch : getNameserverChanges validIp d current hosts = .ok (dl, ul, nv, pv))
    (hupd : (update_host_values reg ul pv).1 = .ok ()) :
    nameservers_setter reg validIp d current hosts st =
      ⟨none, true,
        (deleted_host_values reg d dl).2 ++ (update_host_values reg ul pv).2 ++
          (new_host_values reg d nv).2,
        (if ((pv.length : Int) - ((deleted_host_values reg d dl).1 : Int) +
              ((new_host_values reg d nv).1 : Int)) < 2 then
          (if st = DState.ready then DState.dnsNeeded else st)
        else if ((pv.length : Int) - ((deleted_host_values reg d dl).1 : Int) +
              ((new_host_values reg d nv).1 : Int)) ≤ 13 then
          (if st = DState.dnsNeeded then DState.ready else st)
        else st),
        some ((pv.length : Int) - ((deleted_host_values reg d dl).1 : Int) +
          ((new_host_values reg d nv).1 : Int))⟩ := by
  unfold nameservers_setter
  rw [if_neg hlen, hch]
  dsimp only
  rcases hdv : deleted_host_values reg d dl with ⟨dc, tr1⟩
  rcases hu : update_host_values reg ul pv with ⟨r, tr2⟩
  have hr : r = Except.ok () := by rw [hu] at hupd; exact hupd
  subst hr
  rcases hnh : new_host_values reg d nv with ⟨cc, tr3⟩
  dsimp only

/-- C2: every nameservers setter call that passes validation completes
without raising; its effective nameserver total equals the number of
distinct current nameservers minus the deletions whose detach-and-delete
sequence succeeded plus the creations whose create-and-attach sequence
succeeded, and the lifecycle state is driven toward DNS_NEEDED below 2,
toward READY between 2 and 13 inclusive, with an illegal transition
leaving the state unchanged rather than raising. -/
theorem C2_effective_count_drives_state (reg : Registry) (validIp : String → Bool)
    (d : String) (current : List (String × List String)) (hosts : List Host) (st : DState)
    (dl : List (String × Option (List String))) (ul : List (String × List String))
    (nv pv : NsDict)
    (hnd : (current.map Prod.fst).Nodup)
    (hlen : ¬ hosts.length > 13)
    (hch : getNameserverChanges validIp d current hosts = .ok (dl, ul, nv, pv)) :
    (nameservers_setter reg validIp d current hosts st).err = none ∧
    (nameservers_setter reg validIp d current hosts st).total =
      some ((current.length : Int) - (dl.countP (fun p => delHostSuccess reg d p.1) : Int)
        + (nv.countP (fun p => newHostSuccess reg d p) : Int)) ∧
    (nameservers_setter reg validIp d current hosts st).finalState =
      (if ((current.length : Int) - (dl.countP (fun p => delHostSuccess reg d p.1) : Int)
            + (nv.countP (fun p => newHostSuccess reg d p) : Int)) < 2 then
        (if st = DState.ready then DState.dnsNeeded else st)
      else if ((current.length : Int) - (dl.countP (fun p => delHostSuccess reg d p.1) : Int)
            + (nv.countP (fun p => newHostSuccess reg d p) : Int)) ≤ 13 then
        (if st = DState.dnsNeeded then DState.ready else st)
      else st) := by
  obtain ⟨hpv, hnv, hdiff, hnewok⟩ :=
    getNameserverChanges_ok_parts validIp d current hosts dl ul nv pv hch
  obtain ⟨hul, _⟩ := diffLoop_ok_props validIp d (convert_list_to_dict hosts) _ dl ul hdiff
  have hupd : (update_host_values reg ul pv).1 = .ok () := by
    apply update_host_values_ok
    intro p hp
    obtain ⟨ol, hol⟩ := hul p hp
    refine ⟨ol, ?_⟩
    rw [hpv]
    exact dictGet_of_mem_nodup _ _ _ (convert_keys_nodup _) hol
  have hplen : pv.length = current.length := by
    rw [hpv]
    exact convert_length current hnd
  have hchar := nameservers_setter_ok_char reg validIp d current hosts st dl ul nv pv
    hlen hch hupd
  rw [hchar]
  rw [hplen, deleted_host_values_count, new_host_values_count]
  exact ⟨rfl, rfl, rfl⟩

/-- C2 witness: with all commands succeeding, one current nameserver and
a desired list adding a second one, the total is 2 and the state moves
from DNS_NEEDED to READY. -/
theorem C2_effective_count_witness :
    ((([("ns1.igorville.gov", ["1.1.1.1"])] : List (String × List String)).map
      Prod.fst).Nodup) ∧
    ¬ ([(⟨"ns1.igorville.gov", some ["1.1.1.1"]⟩ : Host),
        ⟨"ns2.igorville.gov", some ["2.2.2.2"]⟩] : List Host).length > 13 ∧
    getNameserverChanges allIp "igorville.gov" [("ns1.igorville.gov", ["1.1.1.1"])]
      [⟨"ns1.igorville.gov", some ["1.1.1.1"]⟩, ⟨"ns2.igorville.gov", some ["2.2.2.2"]⟩] =
      .ok ([], [], [("ns2.igorville.gov", some ["2.2.2.2"])],
        [("ns1.igorville.gov", some ["1.1.1.1"])]) ∧
    (nameservers_setter regAllOk allIp "igorville.gov" [("ns1.igorville.gov", ["1.1.1.1"])]
      [⟨"ns1.igorville.gov", some ["1.1.1.1"]⟩, ⟨"ns2.igorville.gov", some ["2.2.2.2"]⟩]
      DState.dnsNeeded).err = none ∧
    (nameservers_setter regAllOk allIp "igorville.gov" [("ns1.igorville.gov", ["1.1.1.1"])]
      [⟨"ns1.igorville.gov", some ["1.1.1.1"]⟩, ⟨"ns2.igorville.gov", some ["2.2.2.2"]⟩]
      DState.dnsNeeded).total = some 2 ∧
    (nameservers_setter regAllOk allIp "igorville.gov" [("ns1.igorville.gov", ["1.1.1.1"])]
      [⟨"ns1.igorville.gov", some ["1.1.1.1"]⟩, ⟨"ns2.igorville.gov", some ["2.2.2.2"]⟩]
      DState.dnsNeeded).finalState = DState.ready := by
  have h := C2_effective_count_drives_state regAllOk allIp "igorville.gov"
    [("ns1.igorville.gov", ["1.1.1.1"])]
    [⟨"ns1.igorville.gov", some ["1.1.1.1"]⟩, ⟨"ns2.igorville.gov", some ["2.2.2.2"]⟩]
    DState.dnsNeeded [] [] [("ns2.igorville.gov", some ["2.2.2.2"])]
    [("ns1.igorville.gov", some ["1.1.1.1"])] (by decide) (by decide) rfl
  refine ⟨by decide, by decide, rfl, h.1, ?_, ?_⟩
  · rw [h.2.1]
    decide
  · rw [h.2.2]
    decide

theorem make_contact_snd (reg : Registry) (c : PublicContactRec) :
    (make_contact_in_registry reg c).2 =
      [Ev.cmd (Cmd.createContact c.registry_id c.email)] := by
  unfold make_contact_in_registry
  dsimp only
  cases reg (Cmd.createContact c.registry_id c.email) <;> rfl

theorem udwc_snd (reg : Registry) (d : String) (c : PublicContactRec) (rem : Bool) :
    (update_domain_with_contact reg d c rem).2 = [Ev.cmd (updateDomainContactCmd d c rem)] := by
  unfold update_domain_with_contact
  cases reg (updateDomainContactCmd d c rem) <;> rfl

theorem updCmd_not_create (d : String) (c : PublicContactRec) (rem : Bool) :
    isCreateContactEv (Ev.cmd (updateDomainContactCmd d c rem)) = false ∧
    isCreateDomainEv (Ev.cmd (updateDomainContactCmd d c rem)) = false := by
  cases rem <;> exact ⟨rfl, rfl⟩

theorem addreg_snd (reg : Registry) (d : String) (c : PublicContactRec) :
    add_registrant_to_existing_domain reg d c =
      [Ev.cmd (Cmd.updateDomainRegistrant d c.registry_id)] := by
  unfold add_registrant_to_existing_domain
  dsimp only
  cases reg (Cmd.updateDomainRegistrant d c.registry_id) <;> rfl

theorem epp_snd (reg : Registry) (c : PublicContactRec) :
    update_epp_contact reg c = [Ev.cmd (Cmd.updateContact c.registry_id c.email)] := by
  unfold update_epp_contact
  dsimp only
  cases reg (Cmd.updateContact c.registry_id c.email) <;> rfl

theorem ssc_removal_counts (reg : Registry) (d : String) (st : Store)
    (c : PublicContactRec) (others : Store) :
    (ssc_removal reg d st c others).events.countP isCreateContactEv = 0 ∧
    (ssc_removal reg d st c others).events.countP isCreateDomainEv = 0 := by
  unfold ssc_removal
  split
  · cases hq : qsGet others with
    | error e => simp
    | ok ex =>
      dsimp only
      split
      · rw [addreg_snd]
        simp [isCreateContactEv, isCreateDomainEv]
      · rcases hu : update_domain_with_contact reg d ex true with ⟨r, ev2⟩
        have hev2 : ev2 = [Ev.cmd (updateDomainContactCmd d ex true)] := by
          rw [← udwc_snd reg d ex true, hu]
        subst hev2
        cases r <;>
          simp [List.countP_cons, List.countP_append, isCreateContactEv, isCreateDomainEv] <;>
          exact ⟨rfl, rfl⟩
  · simp

theorem ssc_finish_counts (reg : Registry) (d : String) (st2 : Store)
    (c : PublicContactRec) (ae : Bool) (fid : String)
    (recurse : Store → PublicContactRec → COut)
    (hne : ¬(c.contact_type = ContactType.security ∧ c.email = "")) :
    (ssc_finish reg d st2 c ae fid recurse).events.countP isCreateContactEv = 0 ∧
    (ssc_finish reg d st2 c ae fid recurse).events.countP isCreateDomainEv = 0 := by
  unfold ssc_finish
  rw [if_pos hne]
  split
  · dsimp only
    rcases hu : update_domain_with_contact reg d c false with ⟨r, ev3⟩
    have hev3 : ev3 = [Ev.cmd (updateDomainContactCmd d c false)] := by
      rw [← udwc_snd reg d c false, hu]
    subst hev3
    cases r <;>
      simp [List.countP_cons, isCreateContactEv, isCreateDomainEv] <;>
      exact ⟨rfl, rfl⟩
  · split
    · cases hq : qsGet (st2.filter (fun r => r.registry_id == c.registry_id)) with
      | error e => simp
      | ok cur =>
        dsimp only
        split
        · rw [epp_snd]
          simp [isCreateContactEv, isCreateDomainEv]
        · simp
    · simp

theorem ssc_counts (fuel : Nat) (reg : Registry) (d : String) (st : Store)
    (c : PublicContactRec) (e : ContactType) (fid : String)
    (hne : ¬(c.contact_type = ContactType.security ∧ c.email = ""))
    (hsucc : (set_singleton_contact fuel reg d st c e fid).err = none) :
    (set_singleton_contact fuel reg d st c e fid).events.countP isCreateContactEv = 1 ∧
    (set_singleton_contact fuel reg d st c e fid).events.countP isCreateDomainEv = 0 := by
  cases fuel with
  | zero => exact absurd hsucc (by simp [set_singleton_contact])
  | succ n =>
    unfold set_singleton_contact at hsucc ⊢
    by_cases hty : e ≠ c.contact_type
    · rw [if_pos hty] at hsucc
      exact absurd hsucc (by simp)
    · rw [if_neg hty] at hsucc ⊢
      dsimp only at hsucc ⊢
      rw [make_contact_snd] at hsucc ⊢
      generalize hec : (make_contact_in_registry reg c).1 = ec at hsucc ⊢
      by_cases herr : ¬((ec == codeObjectExists) = true) ∧ ec ≠ codeOK
      · rw [if_pos herr] at hsucc
        exact absurd hsucc (by simp)
      · rw [if_neg herr] at hsucc ⊢
        cases hrem : (ssc_removal reg d st c (st.filter (fun r =>
            !(r.registry_id == c.registry_id) && r.domain == d &&
              r.contact_type == c.contact_type))).err with
        | some e2 =>
          rw [hrem] at hsucc
          simp at hsucc
        | none =>
          rw [hrem] at hsucc
          dsimp only at hsucc ⊢
          have h1 := ssc_removal_counts reg d st c (st.filter (fun r =>
            !(r.registry_id == c.registry_id) && r.domain == d &&
              r.contact_type == c.contact_type))
          have h2 := ssc_finish_counts reg d (ssc_removal reg d st c (st.filter (fun r =>
              !(r.registry_id == c.registry_id) && r.domain == d &&
                r.contact_type == c.contact_type))).store c (ec == codeObjectExists) fid
            (fun st4 sd => set_singleton_contact n reg d st4 sd ContactType.security fid)
            hne
          constructor
          · rw [List.countP_append, List.countP_append, h1.1, h2.1]
            simp [isCreateContactEv]
          · rw [List.countP_append, List.countP_append, h1.2, h2.2]
            simp [isCreateDomainEv]

theorem admin_setter_counts (reg : Registry) (d : String) (st : Store)
    (c : PublicContactRec)
    (hsucc : (administrative_contact_setter reg d st c).err = none) :
    (administrative_contact_setter reg d st c).events.countP isCreateContactEv = 1 ∧
    (administrative_contact_setter reg d st c).events.countP isCreateDomainEv = 0 := by
  by_cases hty : c.contact_type ≠ ContactType.administrative
  · unfold administrative_contact_setter at hsucc
    rw [if_pos hty] at hsucc
    exact absurd hsucc (by simp)
  · unfold administrative_contact_setter at hsucc ⊢
    rw [if_neg hty] at hsucc ⊢
    dsimp only at hsucc ⊢
    rw [make_contact_snd, udwc_snd] at hsucc ⊢
    cases hr : (update_domain_with_contact reg d c false).1 with
    | error e =>
      rw [hr] at hsucc
      simp at hsucc
    | ok u =>
      rw [hr] at hsucc
      refine ⟨?_, ?_⟩ <;>
        simp [List.countP_cons, List.countP_append, isCreateContactEv, isCreateDomainEv] <;>
        rfl

theorem save_counts (fuel : Nat) (reg : Registry) (d : String) (st : Store)
    (c : PublicContactRec) (fid : String)
    (hne : ¬(c.contact_type = ContactType.security ∧ c.email = ""))
    (hsucc : (publicContact_save fuel reg d st c fid).err = none) :
    (publicContact_save fuel reg d st c fid).events.countP isCreateContactEv = 1 ∧
    (publicContact_save fuel reg d st c fid).events.countP isCreateDomainEv = 0 := by
  unfold publicContact_save at hsucc ⊢
  cases hct : c.contact_type with
  | administrative =>
    rw [hct] at hsucc
    dsimp only at hsucc ⊢
    have hc := admin_setter_counts reg d (storeSave st c) c hsucc
    constructor
    · simp only [List.countP_append, List.countP_cons, List.countP_nil, hc.1]
      simp [isCreateContactEv]
    · simp only [List.countP_append, List.countP_cons, List.countP_nil, hc.2]
      simp [isCreateDomainEv]
  | registrant =>
    rw [hct] at hsucc
    dsimp only at hsucc ⊢
    have hc := ssc_counts fuel reg d (storeSave st c) c ContactType.registrant fid hne hsucc
    constructor
    · simp only [List.countP_append, List.countP_cons, List.countP_nil, hc.1]
      simp [isCreateContactEv]
    · simp only [List.countP_append, List.countP_cons, List.countP_nil, hc.2]
      simp [isCreateDomainEv]
  | technical =>
    rw [hct] at hsucc
    dsimp only at hsucc ⊢
    have hc := ssc_counts fuel reg d (storeSave st c) c ContactType.technical fid hne hsucc
    constructor
    · simp only [List.countP_append, List.countP_cons, List.countP_nil, hc.1]
      simp [isCreateContactEv]
    · simp only [List.countP_append, List.countP_cons, List.countP_nil, hc.2]
      simp [isCreateDomainEv]
  | security =>
    rw [hct] at hsucc
    dsimp only at hsucc ⊢
    have hc := ssc_counts fuel reg d (storeSave st c) c ContactType.security fid hne hsucc
    constructor
    · simp only [List.countP_append, List.countP_cons, List.countP_nil, hc.1]
      simp [isCreateContactEv]
    · simp only [List.countP_append, List.countP_cons, List.countP_nil, hc.2]
      simp [isCreateDomainEv]

theorem addAllDefaults_counts (fuel : Nat) (reg : Registry) (d : String) (st : Store)
    (sid tid aid fid : String)
    (hsucc : (addAllDefaults fuel reg d st sid tid aid fid).err = none) :
    (addAllDefaults fuel reg d st sid tid aid fid).events.countP isCreateContactEv = 3 ∧
    (addAllDefaults fuel reg d st sid tid aid fid).events.countP isCreateDomainEv = 0 := by
  unfold addAllDefaults at hsucc ⊢
  dsimp only at hsucc ⊢
  cases h1 : (publicContact_save fuel reg d st
      ⟨sid, ContactType.security, defaultSecurityEmail, d⟩ fid).err with
  | some e =>
    rw [h1] at hsucc
    simp at hsucc
  | none =>
    rw [h1] at hsucc
    dsimp only at hsucc ⊢
    cases h2 : (publicContact_save fuel reg d (publicContact_save fuel reg d st
        ⟨sid, ContactType.security, defaultSecurityEmail, d⟩ fid).store
        ⟨tid, ContactType.technical, defaultTechnicalEmail, d⟩ fid).err with
    | some e =>
      rw [h2] at hsucc
      simp at hsucc
    | none =>
      rw [h2] at hsucc
      dsimp only at hsucc ⊢
      have c1 := save_counts fuel reg d st
        ⟨sid, ContactType.security, defaultSecurityEmail, d⟩ fid
        (fun h => by simp [defaultSecurityEmail] at h) h1
      have c2 := save_counts fuel reg d (publicContact_save fuel reg d st
          ⟨sid, ContactType.security, defaultSecurityEmail, d⟩ fid).store
        ⟨tid, ContactType.technical, defaultTechnicalEmail, d⟩ fid
        (fun h => by simp at h) h2
      have c3 := save_counts fuel reg d (publicContact_save fuel reg d
          (publicContact_save fuel reg d st
            ⟨sid, ContactType.security, defaultSecurityEmail, d⟩ fid).store
          ⟨tid, ContactType.technical, defaultTechnicalEmail, d⟩ fid).store
        ⟨aid, ContactType.administrative, defaultAdminEmail, d⟩ fid
        (fun h => by simp at h) hsucc
      constructor
      · rw [List.countP_append, List.countP_append, c1.1, c2.1, c3.1]
      · rw [List.countP_append, List.countP_append, c1.2, c2.2, c3.2]

theorem countP_split {α : Type} (p q : α → Bool) (l : List α) :
    l.countP p = l.countP (fun a => p a && q a) + l.countP (fun a => p a && !q a) := by
  induction l with
  | nil => rfl
  | cons x rest ih =>
    simp only [List.countP_cons, ih]
    by_cases hp : p x = true
    · by_cases hq : q x = true <;> simp [hp, hq] <;> omega
    · simp only [Bool.not_eq_true] at hp
      simp [hp]

theorem countP_id_unique (st : Store) (c : PublicContactRec)
    (hnodup : (st.map (fun r => r.registry_id)).Nodup) (hc : c ∈ st)
    (p : PublicContactRec → Bool) :
    st.countP (fun r => p r && (r.registry_id == c.registry_id)) =
      if p c then 1 else 0 := by
  induction st with
  | nil => cases hc
  | cons x rest ih =>
    have hnd2 : (x.registry_id :: rest.map (fun r => r.registry_id)).Nodup := by
      simpa using hnodup
    rcases List.mem_cons.mp hc with he | hr
    · subst he
      have hrest : rest.countP (fun r => p r && (r.registry_id == c.registry_id)) = 0 := by
        refine List.countP_eq_zero.mpr ?_
        intro r hrmem hpr
        have hid : r.registry_id = c.registry_id := by
          have := (Bool.and_eq_true _ _).mp hpr |>.2
          exact beq_iff_eq.mp this
        exact (List.nodup_cons.mp hnd2).1 (hid ▸ List.mem_map_of_mem _ hrmem)
      simp only [List.countP_cons, hrest]
      by_cases hp : p c = true <;> simp [hp]
    · have hxid : ¬(x.registry_id == c.registry_id) = true := by
        intro hx
        have hx2 : x.registry_id = c.registry_id := beq_iff_eq.mp hx
        exact (List.nodup_cons.mp hnd2).1
          (hx2 ▸ List.mem_map_of_mem (fun r => r.registry_id) hr)
      have := ih (List.nodup_cons.mp hnd2).2 hr
      simp only [List.countP_cons, this, hxid]
      simp

theorem store_unique_id (st : Store) (c r : PublicContactRec)
    (hnodup : (st.map (fun r => r.registry_id)).Nodup) (hc : c ∈ st) (hr : r ∈ st)
    (he : r.registry_id = c.registry_id) : r = c :=
  List.inj_on_of_nodup_map hnodup hr hc he

/-- The conflicting-contact query of _set_singleton_contact as a filter. -/
def othersOf (st : Store) (c : PublicContactRec) (d : String) : Store :=
  st.filter (fun r =>
    !(r.registry_id == c.registry_id) && r.domain == d && r.contact_type == c.contact_type)

theorem ssc_removal_char (reg : Registry) (d : String) (st : Store)
    (c : PublicContactRec) (others : Store)
    (hne : others.isEmpty = false)
    (hsucc : (ssc_removal reg d st c others).err = none) :
    ∃ ex, qsGet others = .ok ex ∧ others = [ex] ∧
      (ssc_removal reg d st c others).store = storeDeleteId st ex.registry_id ∧
      ((c.contact_type = ContactType.registrant ∧
        (ssc_removal reg d st c others).events =
          [Ev.storeDelete ex.registry_id, Ev.cmd (Cmd.updateDomainRegistrant d c.registry_id)]) ∨
       (c.contact_type ≠ ContactType.registrant ∧
        (ssc_removal reg d st c others).events =
          [Ev.cmd (updateDomainContactCmd d ex true), Ev.storeDelete ex.registry_id])) := by
  unfold ssc_removal at hsucc ⊢
  rw [if_pos (by simp [hne])] at hsucc ⊢
  cases hq : qsGet others with
  | error e =>
    rw [hq] at hsucc
    cases hsucc
  | ok ex =>
    rw [hq] at hsucc
    dsimp only at hsucc ⊢
    have hsing : others = [ex] := by
      unfold qsGet at hq
      match others, hq with
      | [r], h => injection h with h; rw [h]
    refine ⟨ex, rfl, hsing, ?_, ?_⟩
    · by_cases hreg : c.contact_type = ContactType.registrant
      · rw [if_pos hreg]
      · rw [if_neg hreg] at hsucc ⊢
        cases hu : (update_domain_with_contact reg d ex true).1 with
        | error e2 =>
          rw [hu] at hsucc
          cases hsucc
        | ok u => rfl
    · by_cases hreg : c.contact_type = ContactType.registrant
      · rw [if_pos hreg]
        refine Or.inl ⟨hreg, ?_⟩
        rw [addreg_snd]
        rfl
      · rw [if_neg hreg] at hsucc ⊢
        cases hu : (update_domain_with_contact reg d ex true).1 with
        | error e2 =>
          rw [hu] at hsucc
          cases hsucc
        | ok u =>
          refine Or.inr ⟨hreg, ?_⟩
          rw [udwc_snd]
          rfl

theorem ssc_finish_store_nonempty (reg : Registry) (d : String) (st2 : Store)
    (c : PublicContactRec) (ae : Bool) (fid : String)
    (recurse : Store → PublicContactRec → COut)
    (hne : ¬(c.contact_type = ContactType.security ∧ c.email = "")) :
    (ssc_finish reg d st2 c ae fid recurse).store = st2 := by
  unfold ssc_finish
  rw [if_pos hne]
  split
  · dsimp only
    cases (update_domain_with_contact reg d c false).1 <;> rfl
  · split
    · cases qsGet (st2.filter (fun r => r.registry_id == c.registry_id)) with
      | error e => rfl
      | ok cur =>
        dsimp only
        split <;> rfl
    · rfl

theorem filter_id_single (st : Store) (c : PublicContactRec)
    (hnodup : (st.map (fun r => r.registry_id)).Nodup) (hc : c ∈ st) :
    st.filter (fun r => r.registry_id == c.registry_id) = [c] := by
  induction st with
  | nil => cases hc
  | cons x rest ih =>
    have hnd2 : (x.registry_id :: rest.map (fun r => r.registry_id)).Nodup := by
      simpa using hnodup
    rcases List.mem_cons.mp hc with he | hr
    · subst he
      rw [List.filter_cons_of_pos (by simp)]
      have hz : rest.filter (fun r => r.registry_id == c.registry_id) = [] := by
        refine List.filter_eq_nil_iff.mpr ?_
        intro r hrmem hpr
        exact (List.nodup_cons.mp hnd2).1
          ((beq_iff_eq.mp hpr) ▸ List.mem_map_of_mem (fun r => r.registry_id) hrmem)
      rw [hz]
    · have hx : ¬(x.registry_id == c.registry_id) = true := by
        intro hx2
        exact (List.nodup_cons.mp hnd2).1
          ((beq_iff_eq.mp hx2) ▸ List.mem_map_of_mem (fun r => r.registry_id) hr)
      rw [List.filter_cons_of_neg (by simpa using hx)]
      exact ih (List.nodup_cons.mp hnd2).2 hr

theorem ssc_finish_emptysec_char (reg : Registry) (d : String) (st2 : Store)
    (c : PublicContactRec) (ae : Bool) (fid : String)
    (recurse : Store → PublicContactRec → COut)
    (hsec : c.contact_type = ContactType.security ∧ c.email = "")
    (hfilter : st2.filter (fun r => r.registry_id == c.registry_id) = [c])
    (hsucc : (ssc_finish reg d st2 c ae fid recurse).err = none) :
    (recurse (storeSave (storeDeleteId st2 c.registry_id)
        ⟨fid, ContactType.security, defaultSecurityEmail, d⟩)
        ⟨fid, ContactType.security, defaultSecurityEmail, d⟩).err = none ∧
    (ssc_finish reg d st2 c ae fid recurse).store =
      (recurse (storeSave (storeDeleteId st2 c.registry_id)
        ⟨fid, ContactType.security, defaultSecurityEmail, d⟩)
        ⟨fid, ContactType.security, defaultSecurityEmail, d⟩).store ∧
    (ssc_finish reg d st2 c ae fid recurse).events =
      Ev.cmd (updateDomainContactCmd d c true) :: Ev.storeDelete c.registry_id ::
        Ev.storeInsert fid ::
      (recurse (storeSave (storeDeleteId st2 c.registry_id)
        ⟨fid, ContactType.security, defaultSecurityEmail, d⟩)
        ⟨fid, ContactType.security, defaultSecurityEmail, d⟩).events := by
  unfold ssc_finish at hsucc ⊢
  rw [if_neg (not_not_intro hsec)] at hsucc ⊢
  rw [hfilter] at hsucc ⊢
  dsimp only [qsGet] at hsucc ⊢
  have hmail : c.email ≠ defaultSecurityEmail := by
    rw [hsec.2]
    decide
  rw [if_pos hmail] at hsucc ⊢
  cases hu : (update_domain_with_contact reg d c true).1 with
  | error e2 =>
    rw [hu] at hsucc
    cases hsucc
  | ok u =>
    rw [hu] at hsucc
    dsimp only at hsucc ⊢
    refine ⟨hsucc, rfl, ?_⟩
    rw [udwc_snd]
    rfl

theorem ssc_store_unchanged (fuel : Nat) (reg : Registry) (d : String) (st : Store)
    (c : PublicContactRec) (e : ContactType) (fid : String)
    (hoth : st.filter (fun r =>
      !(r.registry_id == c.registry_id) && r.domain == d &&
        r.contact_type == c.contact_type) = [])
    (hne : ¬(c.contact_type = ContactType.security ∧ c.email = ""))
    (hsucc : (set_singleton_contact fuel reg d st c e fid).err = none) :
    (set_singleton_contact fuel reg d st c e fid).store = st := by
  cases fuel with
  | zero => exact absurd hsucc (by simp [set_singleton_contact])
  | succ n =>
    unfold set_singleton_contact at hsucc ⊢
    by_cases hty : e ≠ c.contact_type
    · rw [if_pos hty] at hsucc
      exact absurd hsucc (by simp)
    · rw [if_neg hty] at hsucc ⊢
      dsimp only at hsucc ⊢
      rw [hoth] at hsucc ⊢
      generalize hec : (make_contact_in_registry reg c).1 = ec at hsucc ⊢
      by_cases herr : ¬((ec == codeObjectExists) = true) ∧ ec ≠ codeOK
      · rw [if_pos herr] at hsucc
        exact absurd hsucc (by simp)
      · rw [if_neg herr] at hsucc ⊢
        have hrem : ssc_removal reg d st c [] = ⟨none, st, []⟩ := rfl
        rw [hrem] at hsucc ⊢
        dsimp only at hsucc ⊢
        exact ssc_finish_store_nonempty reg d st c (ec == codeObjectExists) fid _ hne

theorem count_after_delete (st : Store) (c old : PublicContactRec) (d : String)
    (hnodup : (st.map (fun r => r.registry_id)).Nodup)
    (hc : c ∈ st) (hcd : c.domain = d)
    (holdid : old.registry_id ≠ c.registry_id)
    (hothers : st.filter (fun r =>
      !(r.registry_id == c.registry_id) && r.domain == d &&
        r.contact_type == c.contact_type) = [old]) :
    ((storeDeleteId st old.registry_id).filter
      (fun r => r.domain == d && r.contact_type == c.contact_type)).length = 1 := by
  unfold storeDeleteId
  rw [List.filter_filter, ← List.countP_eq_length_filter]
  rw [countP_split (fun r => (r.domain == d && r.contact_type == c.contact_type) &&
    !(r.registry_id == old.registry_id)) (fun r => r.registry_id == c.registry_id) st]
  have h1 := countP_id_unique st c hnodup hc
    (fun r => (r.domain == d && r.contact_type == c.contact_type) &&
      !(r.registry_id == old.registry_id))
  have hpc : ((c.domain == d && c.contact_type == c.contact_type) &&
      !(c.registry_id == old.registry_id)) = true := by
    simp [hcd]
    intro hcon
    exact holdid hcon.symm
  rw [hpc] at h1
  simp only [if_true] at h1
  have h2 : st.countP (fun r => ((r.domain == d && r.contact_type == c.contact_type) &&
      !(r.registry_id == old.registry_id)) && !(r.registry_id == c.registry_id)) = 0 := by
    refine List.countP_eq_zero.mpr ?_
    intro r hrmem hpr
    simp only [Bool.and_eq_true, Bool.not_eq_eq_eq_not, Bool.not_true] at hpr
    obtain ⟨⟨⟨hdom, hct⟩, hnold⟩, hnc⟩ := hpr
    have hrm : r ∈ st.filter (fun r =>
        !(r.registry_id == c.registry_id) && r.domain == d &&
          r.contact_type == c.contact_type) := by
      refine List.mem_filter.mpr ⟨hrmem, ?_⟩
      simp [hdom, hct, hnc]
    rw [hothers] at hrm
    have : r = old := by simpa using hrm
    subst this
    simp at hnold
  rw [h1, h2]

/-- C3: a successful setSingletonContact call that replaces an existing
bound contact of the same role but a different registry id leaves exactly
one contact of that role bound to the domain in the local store, and for
non-registrant roles the trace begins with the CreateContact push followed
immediately by the UpdateDomain detaching the old contact and then its
local deletion, so any attachment of the new contact can only come
later. -/
theorem C3_singleton_replacement (fuel : Nat) (reg : Registry) (d : String) (st : Store)
    (c : PublicContactRec) (e : ContactType) (fid : String) (old : PublicContactRec)
    (hnodup : (st.map (fun r => r.registry_id)).Nodup)
    (hc : c ∈ st) (hcd : c.domain = d)
    (hold : old ∈ st) (holdd : old.domain = d) (holdt : old.contact_type = c.contact_type)
    (holdid : old.registry_id ≠ c.registry_id)
    (hfid : ∀ r ∈ st, r.registry_id ≠ fid)
    (hsucc : (set_singleton_contact fuel reg d st c e fid).err = none) :
    ((set_singleton_contact fuel reg d st c e fid).store.filter
      (fun r => r.domain == d && r.contact_type == c.contact_type)).length = 1 ∧
    (c.contact_type ≠ ContactType.registrant →
      ∃ rest, (set_singleton_contact fuel reg d st c e fid).events =
        Ev.cmd (Cmd.createContact c.registry_id c.email) ::
        Ev.cmd (Cmd.updateDomainRemContact d old.registry_id c.contact_type.asString) ::
        Ev.storeDelete old.registry_id :: rest) := by
  cases fuel with
  | zero => exact absurd hsucc (by simp [set_singleton_contact])
  | succ n =>
    unfold set_singleton_contact at hsucc ⊢
    by_cases hty : e ≠ c.contact_type
    · rw [if_pos hty] at hsucc
      exact absurd hsucc (by simp)
    rw [if_neg hty] at hsucc ⊢
    dsimp only at hsucc ⊢
    rw [make_contact_snd] at hsucc ⊢
    generalize hec : (make_contact_in_registry reg c).1 = ec at hsucc ⊢
    by_cases herr : ¬((ec == codeObjectExists) = true) ∧ ec ≠ codeOK
    · rw [if_pos herr] at hsucc
      exact absurd hsucc (by simp)
    rw [if_neg herr] at hsucc ⊢
    have hmemoth : old ∈ st.filter (fun r =>
        !(r.registry_id == c.registry_id) && r.domain == d &&
          r.contact_type == c.contact_type) := by
      refine List.mem_filter.mpr ⟨hold, ?_⟩
      simp [holdd, holdt, holdid]
    have hothne : (st.filter (fun r =>
        !(r.registry_id == c.registry_id) && r.domain == d &&
          r.contact_type == c.contact_type)).isEmpty = false := by
      cases hfl : st.filter (fun r =>
          !(r.registry_id == c.registry_id) && r.domain == d &&
            r.contact_type == c.contact_type) with
      | nil => rw [hfl] at hmemoth; cases hmemoth
      | cons a t => rfl
    cases hrem : (ssc_removal reg d st c (st.filter (fun r =>
        !(r.registry_id == c.registry_id) && r.domain == d &&
          r.contact_type == c.contact_type))).err with
    | some e2 =>
      rw [hrem] at hsucc
      simp at hsucc
    | none =>
      rw [hrem] at hsucc
      dsimp only at hsucc ⊢
      obtain ⟨ex, hq, hsing, hstore, hevor⟩ := ssc_removal_char reg d st c (st.filter (fun r =>
        !(r.registry_id == c.registry_id) && r.domain == d &&
          r.contact_type == c.contact_type)) hothne hrem
      have hexold : old = ex := by
        rw [hsing] at hmemoth
        simpa using hmemoth
      subst hexold
      rw [hstore] at hsucc ⊢
      constructor
      · -- exactly one contact of the role remains bound
        by_cases hsec : c.contact_type = ContactType.security ∧ c.email = ""
        · -- clear-security path: the default replaces the emptied contact
          have hfilterB : (storeDeleteId st old.registry_id).filter
              (fun r => r.registry_id == c.registry_id) = [c] := by
            unfold storeDeleteId
            rw [List.filter_filter]
            have hcongr : ∀ r ∈ st, ((r.registry_id == c.registry_id) &&
                !(r.registry_id == old.registry_id)) = (r.registry_id == c.registry_id) := by
              intro r hr
              by_cases hrc : (r.registry_id == c.registry_id) = true
              · have : r = c := store_unique_id st c r hnodup hc hr (beq_iff_eq.mp hrc)
                subst this
                simp [hrc]
                intro hco
                exact holdid hco.symm
              · simp [hrc]
            rw [List.filter_congr hcongr]
            exact filter_id_single st c hnodup hc
          have hFB := ssc_finish_emptysec_char reg d (storeDeleteId st old.registry_id) c
            (ec == codeObjectExists) fid
            (fun st4 sd => set_singleton_contact n reg d st4 sd ContactType.security fid)
            hsec hfilterB hsucc
          have hanyf : ¬ ((storeDeleteId (storeDeleteId st old.registry_id)
              c.registry_id).any (fun r => r.registry_id == fid) = true) := by
            intro hany
            obtain ⟨r, hr, hrfid⟩ := List.any_eq_true.mp hany
            have hr1 : r ∈ st := by
              unfold storeDeleteId at hr
              exact List.mem_of_mem_filter (List.mem_of_mem_filter hr)
            exact hfid r hr1 (beq_iff_eq.mp hrfid)
          have happend : storeSave (storeDeleteId (storeDeleteId st old.registry_id)
              c.registry_id) ⟨fid, ContactType.security, defaultSecurityEmail, d⟩ =
              storeDeleteId (storeDeleteId st old.registry_id) c.registry_id ++
                [⟨fid, ContactType.security, defaultSecurityEmail, d⟩] := by
            unfold storeSave
            dsimp only
            rw [if_neg hanyf]
          have hothdefault : List.filter
              (fun r : PublicContactRec => !(r.registry_id == fid) && r.domain == d &&
                r.contact_type == ContactType.security)
              (storeDeleteId (storeDeleteId st old.registry_id) c.registry_id ++
                [⟨fid, ContactType.security, defaultSecurityEmail, d⟩]) = [] := by
            refine List.filter_eq_nil_iff.mpr ?_
            intro r hr hpr
            rcases List.mem_append.mp hr with hr3 | hrd
            · unfold storeDeleteId at hr3
              have hrnc := List.mem_filter.mp hr3
              have hrnold := List.mem_filter.mp hrnc.1
              simp only [Bool.and_eq_true] at hpr
              obtain ⟨⟨_, hdom⟩, hct⟩ := hpr
              have hrm : r ∈ st.filter (fun r =>
                  !(r.registry_id == c.registry_id) && r.domain == d &&
                    r.contact_type == c.contact_type) := by
                refine List.mem_filter.mpr ⟨hrnold.1, ?_⟩
                have hct2 : r.contact_type = c.contact_type := by
                  have := beq_iff_eq.mp hct
                  rw [this]
                  exact hsec.1.symm
                simp only [Bool.and_eq_true]
                refine ⟨⟨?_, hdom⟩, by simp [hct2]⟩
                exact hrnc.2
              rw [hsing] at hrm
              have : r = old := by simpa using hrm
              subst this
              have := hrnold.2
              simp at this
            · have : r = ⟨fid, ContactType.security, defaultSecurityEmail, d⟩ := by
                simpa using hrd
              subst this
              simp at hpr
          rw [happend] at hFB
          have hinner := ssc_store_unchanged n reg d
            (storeDeleteId (storeDeleteId st old.registry_id) c.registry_id ++
              [⟨fid, ContactType.security, defaultSecurityEmail, d⟩])
            ⟨fid, ContactType.security, defaultSecurityEmail, d⟩ ContactType.security fid
            hothdefault (fun h => by simp [defaultSecurityEmail] at h) hFB.1
          rw [hFB.2.1]
          dsimp only
          rw [hinner]
          rw [List.filter_append]
          have hfq : ([(⟨fid, ContactType.security, defaultSecurityEmail, d⟩ :
              PublicContactRec)].filter
              (fun r => r.domain == d && r.contact_type == c.contact_type)) =
              [⟨fid, ContactType.security, defaultSecurityEmail, d⟩] := by
            simp [hsec.1]
          have hz : ((storeDeleteId (storeDeleteId st old.registry_id)
              c.registry_id).filter
              (fun r => r.domain == d && r.contact_type == c.contact_type)) = [] := by
            refine List.filter_eq_nil_iff.mpr ?_
            intro r hr hpr
            unfold storeDeleteId at hr
            have hrnc := List.mem_filter.mp hr
            have hrnold := List.mem_filter.mp hrnc.1
            simp only [Bool.and_eq_true] at hpr
            have hrm : r ∈ st.filter (fun r =>
                !(r.registry_id == c.registry_id) && r.domain == d &&
                  r.contact_type == c.contact_type) := by
              refine List.mem_filter.mpr ⟨hrnold.1, ?_⟩
              simp only [Bool.and_eq_true]
              refine ⟨⟨?_, hpr.1⟩, hpr.2⟩
              simpa using hrnc.2
            rw [hsing] at hrm
            have : r = old := by simpa using hrm
            subst this
            have := hrnold.2
            simp at this
          rw [hfq, hz]
          rfl
        · -- every other path leaves the store after the deletion untouched
          have hfinstore := ssc_finish_store_nonempty reg d
            (storeDeleteId st old.registry_id) c (ec == codeObjectExists) fid
            (fun st4 sd => set_singleton_contact n reg d st4 sd ContactType.security fid)
            hsec
          rw [hfinstore]
          exact count_after_delete st c old d hnodup hc hcd holdid hsing
      · -- detach-then-delete ordering for non-registrant roles
        intro hnreg
        rcases hevor with ⟨hregty, _⟩ | ⟨_, hevs⟩
        · exact absurd hregty hnreg
        · refine ⟨(ssc_finish reg d (storeDeleteId st old.registry_id) c
            (ec == codeObjectExists) fid
            (fun st4 sd => set_singleton_contact n reg d st4 sd ContactType.security fid)).events,
            ?_⟩
          rw [hevs]
          simp [updateDomainContactCmd, holdt]

theorem C3_singleton_replacement_witness :
    (set_singleton_contact 3 regAllOk "igorville.gov"
      [⟨"new1", ContactType.security, "x@y.gov", "igorville.gov"⟩,
       ⟨"old1", ContactType.security, "z@w.gov", "igorville.gov"⟩]
      ⟨"new1", ContactType.security, "x@y.gov", "igorville.gov"⟩
      ContactType.security "fresh1").err = none ∧
    ((set_singleton_contact 3 regAllOk "igorville.gov"
      [⟨"new1", ContactType.security, "x@y.gov", "igorville.gov"⟩,
       ⟨"old1", ContactType.security, "z@w.gov", "igorville.gov"⟩]
      ⟨"new1", ContactType.security, "x@y.gov", "igorville.gov"⟩
      ContactType.security "fresh1").store.filter
      (fun r => r.domain == "igorville.gov" &&
        r.contact_type == ContactType.security)).length = 1 ∧
    (∃ rest, (set_singleton_contact 3 regAllOk "igorville.gov"
      [⟨"new1", ContactType.security, "x@y.gov", "igorville.gov"⟩,
       ⟨"old1", ContactType.security, "z@w.gov", "igorville.gov"⟩]
      ⟨"new1", ContactType.security, "x@y.gov", "igorville.gov"⟩
      ContactType.security "fresh1").events =
        Ev.cmd (Cmd.createContact "new1" "x@y.gov") ::
        Ev.cmd (Cmd.updateDomainRemContact "igorville.gov" "old1"
          (ContactType.asString ContactType.security)) ::
        Ev.storeDelete "old1" :: rest) := by
  have h := C3_singleton_replacement 3 regAllOk "igorville.gov"
    [⟨"new1", ContactType.security, "x@y.gov", "igorville.gov"⟩,
     ⟨"old1", ContactType.security, "z@w.gov", "igorville.gov"⟩]
    ⟨"new1", ContactType.security, "x@y.gov", "igorville.gov"⟩
    ContactType.security "fresh1"
    ⟨"old1", ContactType.security, "z@w.gov", "igorville.gov"⟩
    (by decide) (by decide) rfl (by decide) rfl rfl (by decide) (by decide) rfl
  exact ⟨rfl, h.1, h.2 (by decide)⟩

/-- C4 counterexample: materializing a concrete UNKNOWN domain on a
registry where every command succeeds does reach DNS_NEEDED with exactly
one CreateDomain, but issues four CreateContact commands (the generated
registrant plus the security, technical and administrative defaults),
not three. -/
theorem C4_counterexample :
    (dns_needed_from_unknown 5 regAllOk "igorville.gov" [] DState.unknown
      "reg1" "sec1" "tech1" "adm1" "fresh1").err = none ∧
    (dns_needed_from_unknown 5 regAllOk "igorville.gov" [] DState.unknown
      "reg1" "sec1" "tech1" "adm1" "fresh1").state = DState.dnsNeeded ∧
    (dns_needed_from_unknown 5 regAllOk "igorville.gov" [] DState.unknown
      "reg1" "sec1" "tech1" "adm1" "fresh1").events.countP isCreateDomainEv = 1 ∧
    (dns_needed_from_unknown 5 regAllOk "igorville.gov" [] DState.unknown
      "reg1" "sec1" "tech1" "adm1" "fresh1").events.countP isCreateContactEv = 4 := by
  refine ⟨rfl, rfl, rfl, rfl⟩

/-- C4 amended: a successful materialize call from UNKNOWN leaves the
domain DNS_NEEDED having issued exactly one CreateDomain and exactly four
CreateContact commands (registrant, security, technical, administrative);
an OBJECT_EXISTS answer to CreateDomain is treated as success (the call
succeeds exactly when the remaining default-contact work succeeds); any
other CreateDomain error is raised, leaves the state UNKNOWN, and the
CreateDomain was sent exactly once, never retried. -/
theorem C4_materialize_behavior (fuel : Nat) (reg : Registry) (d : String) (st : Store)
    (state : DState) (rid sid tid aid fid : String)
    (hstate : state = DState.unknown) :
    ((dns_needed_from_unknown fuel reg d st state rid sid tid aid fid).err = none →
      (dns_needed_from_unknown fuel reg d st state rid sid tid aid fid).state =
        DState.dnsNeeded ∧
      (dns_needed_from_unknown fuel reg d st state rid sid tid aid fid).events.countP
        isCreateDomainEv = 1 ∧
      (dns_needed_from_unknown fuel reg d st state rid sid tid aid fid).events.countP
        isCreateContactEv = 4) ∧
    (∀ c, (addRegistrant fuel reg d st rid fid).err = none →
      reg (Cmd.createDomain d rid) = .err c → c ≠ codeObjectExists →
      (dns_needed_from_unknown fuel reg d st state rid sid tid aid fid).err.isSome = true ∧
      (dns_needed_from_unknown fuel reg d st state rid sid tid aid fid).state =
        DState.unknown ∧
      (dns_needed_from_unknown fuel reg d st state rid sid tid aid fid).events.countP
        isCreateDomainEv = 1) ∧
    ((addRegistrant fuel reg d st rid fid).err = none →
      reg (Cmd.createDomain d rid) = .err codeObjectExists →
      ((dns_needed_from_unknown fuel reg d st state rid sid tid aid fid).err = none ↔
        (addAllDefaults fuel reg d (addRegistrant fuel reg d st rid fid).store
          sid tid aid fid).err = none)) := by
  subst hstate
  unfold dns_needed_from_unknown
  rw [if_neg (by simp)]
  dsimp only
  cases haddr : (addRegistrant fuel reg d st rid fid).err with
  | some e =>
    refine ⟨?_, ?_, ?_⟩
    · intro h
      simp at h
    · intro c h1 h2 h3
      cases h1
    · intro h1 h2
      cases h1
  | none =>
    dsimp only
    have hr1 : (addRegistrant fuel reg d st rid fid).events.countP isCreateContactEv = 1 ∧
        (addRegistrant fuel reg d st rid fid).events.countP isCreateDomainEv = 0 :=
      save_counts fuel reg d st ⟨rid, ContactType.registrant, defaultRegistrantEmail, d⟩
        fid (fun h => by simp at h) haddr
    cases hcd : reg (Cmd.createDomain d rid) with
    | ok c0 =>
      dsimp only
      cases hdef : (addAllDefaults fuel reg d (addRegistrant fuel reg d st rid fid).store
          sid tid aid fid).err with
      | some e =>
        refine ⟨?_, ?_, ?_⟩
        · intro h
          simp at h
        · intro c h1 h2 h3
          cases h2
        · intro h1 h2
          cases h2
      | none =>
        have hd := addAllDefaults_counts fuel reg d
          (addRegistrant fuel reg d st rid fid).store sid tid aid fid hdef
        refine ⟨?_, ?_, ?_⟩
        · intro _
          refine ⟨rfl, ?_, ?_⟩
          · rw [List.countP_append, List.countP_append, hr1.2, hd.2,
              List.countP_cons, List.countP_nil]
            rfl
          · rw [List.countP_append, List.countP_append, hr1.1, hd.1,
              List.countP_cons, List.countP_nil]
            rfl
        · intro c h1 h2 h3
          cases h2
        · intro h1 h2
          cases h2
    | err c0 =>
      dsimp only
      by_cases hc0 : c0 ≠ codeObjectExists
      · rw [if_pos hc0]
        refine ⟨?_, ?_, ?_⟩
        · intro h
          simp at h
        · intro c h1 h2 h3
          injection h2 with h2
          refine ⟨rfl, rfl, ?_⟩
          rw [List.countP_append, hr1.2, List.countP_cons, List.countP_nil]
          rfl
        · intro h1 h2
          injection h2 with h2
          exact absurd h2 hc0
      · rw [if_neg hc0]
        push_neg at hc0
        subst hc0
        cases hdef : (addAllDefaults fuel reg d (addRegistrant fuel reg d st rid fid).store
            sid tid aid fid).err with
        | some e =>
          refine ⟨?_, ?_, ?_⟩
          · intro h
            simp at h
          · intro c h1 h2 h3
            injection h2 with h2
            exact absurd h2.symm h3
          · intro h1 h2
            constructor
            · intro h
              simp at h
            · intro h
              cases h
        | none =>
          have hd := addAllDefaults_counts fuel reg d
            (addRegistrant fuel reg d st rid fid).store sid tid aid fid hdef
          refine ⟨?_, ?_, ?_⟩
          · intro _
            refine ⟨rfl, ?_, ?_⟩
            · rw [List.countP_append, List.countP_append, hr1.2, hd.2,
                List.countP_cons, List.countP_nil]
              rfl
            · rw [List.countP_append, List.countP_append, hr1.1, hd.1,
                List.countP_cons, List.countP_nil]
              rfl
          · intro c h1 h2 h3
            injection h2 with h2
            exact absurd h2.symm h3
          · intro h1 h2
            simp

/-- C4 amended witness: the concrete all-success materialize run reaches
DNS_NEEDED with one CreateDomain and four CreateContact commands. -/
theorem C4_materialize_witness :
    DState.unknown = DState.unknown ∧
    ((dns_needed_from_unknown 5 regAllOk "igorville.gov" [] DState.unknown
        "reg1" "sec1" "tech1" "adm1" "fresh1").err = none →
      (dns_needed_from_unknown 5 regAllOk "igorville.gov" [] DState.unknown
        "reg1" "sec1" "tech1" "adm1" "fresh1").state = DState.dnsNeeded ∧
      (dns_needed_from_unknown 5 regAllOk "igorville.gov" [] DState.unknown
        "reg1" "sec1" "tech1" "adm1" "fresh1").events.countP isCreateDomainEv = 1 ∧
      (dns_needed_from_unknown 5 regAllOk "igorville.gov" [] DState.unknown
        "reg1" "sec1" "tech1" "adm1" "fresh1").events.countP isCreateContactEv = 4) :=
  ⟨rfl,
    (C4_materialize_behavior 5 regAllOk "igorville.gov" [] DState.unknown
      "reg1" "sec1" "tech1" "adm1" "fresh1" rfl).1⟩

/-- C1 counterexample: for the domain igorville.gov with registered
nameserver ns1.igorville.gov carrying an address, the desired entry for
the same subdomain hostname with an absent address list (whose address
set therefore differs from the registered one) does not raise any
validation error: the setter runs to completion with no error and drives
the state transition. -/
theorem C1_counterexample :
    isSubdomain "igorville.gov" "ns1.igorville.gov" = true ∧
    nameservers_setter regAllOk allIp "igorville.gov" [("ns1.igorville.gov", ["1.1.1.1"])]
      [⟨"ns1.igorville.gov", none⟩] DState.ready =
      ⟨none, true, [], DState.dnsNeeded, some 1⟩ := by
  exact ⟨rfl, rfl⟩

/-- C1 amended: the subordinate and delegated host rules are enforced,
before any registry command is sent, for every newly created entry and
for every changed entry whose new address list is present; a changed
entry whose new address value is absent is skipped without validation.
Concretely: whenever the effective desired entry for hostname k is newly
created and violates the rule (subdomain with empty-or-absent addresses,
or non-subdomain with addresses), or is a changed entry with a present
new address list violating the rule, the setter raises and its command
trace is empty. -/
theorem C1_hostipcombo_validation (reg : Registry) (validIp : String → Bool) (d : String)
    (current : List (String × List String)) (hosts : List Host) (st : DState)
    (k : String) (v : Option (List String))
    (hmem : (k, v) ∈ convert_list_to_dict hosts)
    (hbad :
      (dictHasKey (convert_list_to_dict (current.map (fun p => (⟨p.1, some p.2⟩ : Host)))) k
          = false ∧
        ((isSubdomain d k = true ∧ isEmptyIp v = true) ∨
         (isSubdomain d k = false ∧ isEmptyIp v = false))) ∨
      (∃ nl ol, v = some nl ∧
        dictGet (convert_list_to_dict (current.map (fun p => (⟨p.1, some p.2⟩ : Host)))) k
          = some (some ol) ∧
        setEq nl ol = false ∧
        ((isSubdomain d k = true ∧ isEmptyIp (some nl) = true) ∨
         (isSubdomain d k = false ∧ isEmptyIp (some nl) = false)))) :
    (nameservers_setter reg validIp d current hosts st).err.isSome = true ∧
    (nameservers_setter reg validIp d current hosts st).trace = [] := by
  by_cases hlen : hosts.length > 13
  · unfold nameservers_setter
    rw [if_pos hlen]
    exact ⟨rfl, rfl⟩
  · cases hch : getNameserverChanges validIp d current hosts with
    | error e =>
      unfold nameservers_setter
      rw [if_neg hlen, hch]
      exact ⟨rfl, rfl⟩
    | ok r =>
      exfalso
      rcases r with ⟨dl, ul, nv, pv⟩
      obtain ⟨hpv, hnv, hdiff, hnewok⟩ :=
        getNameserverChanges_ok_parts validIp d current hosts dl ul nv pv hch
      rcases hbad with ⟨hnokey, hb⟩ | ⟨nl, ol, hv, hget, hsne, hb⟩
      · have hmemnv : (k, v) ∈ nv := by
          rw [hnv, hpv]
          refine List.mem_filter.mpr ⟨hmem, ?_⟩
          simp [hnokey]
        exact checkHostIPCombo_bad validIp d k v hb
          (checkNewLoop_ok validIp d nv hnewok (k, v) hmemnv)
      · subst hv
        have hgetnew : dictGet (convert_list_to_dict hosts) k = some (some nl) :=
          dictGet_of_mem_nodup _ _ _ (convert_keys_nodup hosts) hmem
        have hmemprev : (k, some ol) ∈
            convert_list_to_dict (current.map (fun p => (⟨p.1, some p.2⟩ : Host))) :=
          dictGet_mem _ _ _ hget
        obtain ⟨_, hcheck⟩ :=
          diffLoop_ok_props validIp d (convert_list_to_dict hosts) _ dl ul hdiff
        exact checkHostIPCombo_bad validIp d k (some nl) hb
          (hcheck k ol nl hmemprev hgetnew hsne)

/-- C1 amended witness: a newly created subdomain entry with an absent
address list is rejected with an empty command trace on a concrete
domain. -/
theorem C1_hostipcombo_validation_witness :
    ((("ns1.igorville.gov" : String), (none : Option (List String))) ∈
      convert_list_to_dict [⟨"ns1.igorville.gov", none⟩]) ∧
    ((nameservers_setter regAllOk allIp "igorville.gov" []
        [⟨"ns1.igorville.gov", none⟩] DState.ready).err.isSome = true ∧
      (nameservers_setter regAllOk allIp "igorville.gov" []
        [⟨"ns1.igorville.gov", none⟩] DState.ready).trace = []) :=
  ⟨by decide,
    C1_hostipcombo_validation regAllOk allIp "igorville.gov" []
      [⟨"ns1.igorville.gov", none⟩] DState.ready "ns1.igorville.gov" none (by decide)
      (Or.inl ⟨rfl, Or.inl ⟨by decide, rfl⟩⟩)⟩

/-- C5: a desired nameserver list longer than 13 entries makes the
nameservers setter raise the too-many-hosts validation error before the
current nameservers are fetched and before any registry command is
sent. -/
theorem C5_too_many_hosts_rejected_early (reg : Registry) (validIp : String → Bool)
    (domainName : String) (current : List (String × List String)) (hosts : List Host)
    (st : DState) (h : hosts.length > 13) :
    nameservers_setter reg validIp domainName current hosts st =
      ⟨some "Too many hosts provided, you may not have more than 13 nameservers.",
        false, [], st, none⟩ := by
  unfold nameservers_setter
  rw [if_pos h]

/-- C5 witness: a concrete 14-entry list is rejected with no fetch and no
commands. -/
theorem C5_too_many_hosts_witness :
    (List.replicate 14 (⟨"ns1.igorville.gov", some ["1.1.1.1"]⟩ : Host)).length > 13 ∧
    nameservers_setter regAllOk allIp "igorville.gov" []
      (List.replicate 14 ⟨"ns1.igorville.gov", some ["1.1.1.1"]⟩) DState.ready =
      ⟨some "Too many hosts provided, you may not have more than 13 nameservers.",
        false, [], DState.ready, none⟩ :=
  ⟨by decide,
    C5_too_many_hosts_rejected_early regAllOk allIp "igorville.gov" [] _ DState.ready
      (by decide)⟩

/-- C7: a lifecycle transition invoked outside its declared source states
fails with the distinct TransitionNotAllowed error and leaves the state
unchanged; the delete transition is legal exactly from ON_HOLD; and every
state change follows the declared transition table. -/
theorem C7_guarded_transitions (t : FSM.Tr) (s : DState) (hill : s ∉ FSM.sources t) :
    FSM.applyTransition t s = .error "TransitionNotAllowed" ∧
    FSM.runTransition t s = s ∧
    (∀ s2, (FSM.applyTransition FSM.Tr.deleted s2).isOk = true ↔ s2 = DState.onHold) ∧
    (∀ t2 s2, FSM.runTransition t2 s2 ≠ s2 →
      s2 ∈ FSM.sources t2 ∧ FSM.runTransition t2 s2 = FSM.target t2) := by
  refine ⟨?_, ?_, ?_, ?_⟩
  · simp [FSM.applyTransition, hill]
  · simp [FSM.runTransition, FSM.applyTransition, hill]
  · intro s2
    cases s2 <;> decide
  · intro t2 s2 h
    cases t2 <;> cases s2 <;>
      simp_all [FSM.runTransition, FSM.applyTransition, FSM.sources, FSM.target]

/-- C7 witness: deleting from UNKNOWN is illegal, errors distinctly,
leaves the state unchanged, and the table properties hold. -/
theorem C7_guarded_transitions_witness :
    DState.unknown ∉ FSM.sources FSM.Tr.deleted ∧
    (FSM.applyTransition FSM.Tr.deleted DState.unknown = .error "TransitionNotAllowed" ∧
     FSM.runTransition FSM.Tr.deleted DState.unknown = DState.unknown ∧
     (∀ s2, (FSM.applyTransition FSM.Tr.deleted s2).isOk = true ↔ s2 = DState.onHold) ∧
     (∀ t2 s2, FSM.runTransition t2 s2 ≠ s2 →
       s2 ∈ FSM.sources t2 ∧ FSM.runTransition t2 s2 = FSM.target t2)) :=
  ⟨by decide, C7_guarded_transitions FSM.Tr.deleted DState.unknown (by decide)⟩

/-- C10 counterexample: with a successfully fetched hosts list whose one
entry has no addrs key (a delegated host, whose null address list the
fetch strips), the nameservers getter raises KeyError to its caller
instead of returning a list. -/
theorem C10_counterexample :
    nameservers_getter (Except.ok [⟨"ns1.example.com", none⟩]) =
      Except.error "KeyError: addrs" := rfl

/-- C10 amended: the getter turns any failure of the hosts property fetch
into the empty list; when the fetch succeeds it returns the name-address
tuples provided every entry carries an addrs key, and raises KeyError as
soon as some entry lacks one. -/
theorem C10_getter_behavior (e : String) (hosts : List HostEntry) :
    nameservers_getter (Except.error e) = Except.ok [] ∧
    ((∀ h ∈ hosts, h.addrs.isSome) →
      nameservers_getter (Except.ok hosts) =
        Except.ok (hosts.map (fun h => (h.name, h.addrs.getD [])))) ∧
    (∀ h ∈ hosts, h.addrs = none →
      ∃ msg, nameservers_getter (Except.ok hosts) = Except.error msg) := by
  refine ⟨rfl, ?_, ?_⟩
  · intro hall
    show hostTupleLoop hosts = _
    induction hosts with
    | nil => rfl
    | cons h rest ih =>
      have hh := hall h (List.mem_cons_self h rest)
      match ha : h.addrs with
      | none => rw [ha] at hh; simp at hh
      | some a =>
        have hrest : ∀ x ∈ rest, x.addrs.isSome := fun x hx =>
          hall x (List.mem_cons_of_mem h hx)
        simp only [hostTupleLoop, ha, ih hrest, List.map_cons, Except.bind]
        rfl
  · intro h hmem hnone
    show ∃ msg, hostTupleLoop hosts = Except.error msg
    induction hosts with
    | nil => cases hmem
    | cons x rest ih =>
      rcases List.mem_cons.mp hmem with hx | hx
      · subst hx
        exact ⟨"KeyError: addrs", by simp [hostTupleLoop, hnone]⟩
      · match ha : x.addrs with
        | none => exact ⟨"KeyError: addrs", by simp [hostTupleLoop, ha]⟩
        | some a =>
          obtain ⟨msg, hmsg⟩ := ih hx
          refine ⟨msg, ?_⟩
          simp only [hostTupleLoop, ha, hmsg]
          rfl

/-- C10 witness: a fetch failure yields the empty list, and a fetched
list whose entries all carry addresses yields the tuples. -/
theorem C10_getter_behavior_witness :
    nameservers_getter (Except.error "KeyError: hosts") = Except.ok [] ∧
    ((∀ h ∈ [(⟨"ns1.igorville.gov", some ["1.1.1.1"]⟩ : HostEntry)], h.addrs.isSome) →
      nameservers_getter (Except.ok [⟨"ns1.igorville.gov", some ["1.1.1.1"]⟩]) =
        Except.ok (([⟨"ns1.igorville.gov", some ["1.1.1.1"]⟩] : List HostEntry).map
          (fun h => (h.name, h.addrs.getD [])))) ∧
    (∀ h ∈ [(⟨"ns1.igorville.gov", some ["1.1.1.1"]⟩ : HostEntry)], h.addrs = none →
      ∃ msg, nameservers_getter
        (Except.ok [⟨"ns1.igorville.gov", some ["1.1.1.1"]⟩]) = Except.error msg) :=
  C10_getter_behavior "KeyError: hosts" [⟨"ns1.igorville.gov", some ["1.1.1.1"]⟩]

/-- C6 counterexample: a mutating security-contact assignment whose
remote CreateContact fails raises out of the descriptor set and leaves
the non-empty cache exactly as it was, so the next read is served from
the stale cache. -/
theorem C6_counterexample :
    domain_set_security_contact 3 regFailCreateContact "igorville.gov"
      [⟨"sec1", ContactType.security, "abc@example.gov", "igorville.gov"⟩]
      ⟨"sec1", ContactType.security, "abc@example.gov", "igorville.gov"⟩
      "fresh1" [("cr_date", 5)] =
      (some "Unable to add contact to registry", [("cr_date", 5)]) ∧
    ([("cr_date", 5)] : CacheMap Nat) ≠ [] := by
  decide

/-- C6 amended: the descriptor empties the whole cache after a mutating
property set that returns without raising, and leaves the cache exactly
as it was when the setter raises. -/
theorem C6_cache_invalidation (fuel : Nat) (reg reg2 : Registry) (validIp : String → Bool)
    (d d2 : String) (store : Store) (c : PublicContactRec) (fid : String)
    (current : List (String × List String)) (hosts : List Host) (st : DState)
    (cache cache2 : CacheMap Nat) :
    ((domain_set_security_contact fuel reg d store c fid cache).1 = none →
      (domain_set_security_contact fuel reg d store c fid cache).2 = []) ∧
    ((domain_set_security_contact fuel reg d store c fid cache).1 ≠ none →
      (domain_set_security_contact fuel reg d store c fid cache).2 = cache) ∧
    ((domain_set_nameservers reg2 validIp d2 current hosts st cache2).1 = none →
      (domain_set_nameservers reg2 validIp d2 current hosts st cache2).2 = []) ∧
    ((domain_set_nameservers reg2 validIp d2 current hosts st cache2).1 ≠ none →
      (domain_set_nameservers reg2 validIp d2 current hosts st cache2).2 = cache2) := by
  refine ⟨?_, ?_, ?_, ?_⟩ <;>
    dsimp [domain_set_security_contact, domain_set_nameservers, cache_descriptor_set,
      contactRun, setterRun]
  · cases h : (set_singleton_contact fuel reg d store c ContactType.security fid).err <;>
      simp [h]
  · cases h : (set_singleton_contact fuel reg d store c ContactType.security fid).err <;>
      simp [h]
  · cases h : (nameservers_setter reg2 validIp d2 current hosts st).err <;> simp [h]
  · cases h : (nameservers_setter reg2 validIp d2 current hosts st).err <;> simp [h]

/-- C6 amended witness: a concrete successful nameservers assignment
empties a previously non-empty cache, and a concrete failing one leaves
it unchanged. -/
theorem C6_cache_invalidation_witness :
    ((domain_set_security_contact 3 regAllOk "igorville.gov"
        [⟨"sec1", ContactType.security, "abc@example.gov", "igorville.gov"⟩]
        ⟨"sec1", ContactType.security, "abc@example.gov", "igorville.gov"⟩
        "fresh1" [("cr_date", 5)]).1 = none →
      (domain_set_security_contact 3 regAllOk "igorville.gov"
        [⟨"sec1", ContactType.security, "abc@example.gov", "igorville.gov"⟩]
        ⟨"sec1", ContactType.security, "abc@example.gov", "igorville.gov"⟩
        "fresh1" [("cr_date", 5)]).2 = []) ∧
    ((domain_set_security_contact 3 regAllOk "igorville.gov"
        [⟨"sec1", ContactType.security, "abc@example.gov", "igorville.gov"⟩]
        ⟨"sec1", ContactType.security, "abc@example.gov", "igorville.gov"⟩
        "fresh1" [("cr_date", 5)]).1 ≠ none →
      (domain_set_security_contact 3 regAllOk "igorville.gov"
        [⟨"sec1", ContactType.security, "abc@example.gov", "igorville.gov"⟩]
        ⟨"sec1", ContactType.security, "abc@example.gov", "igorville.gov"⟩
        "fresh1" [("cr_date", 5)]).2 = [("cr_date", 5)]) ∧
    ((domain_set_nameservers regAllOk allIp "igorville.gov" [] [] DState.ready
        [("ex_date", 7)]).1 = none →
      (domain_set_nameservers regAllOk allIp "igorville.gov" [] [] DState.ready
        [("ex_date", 7)]).2 = []) ∧
    ((domain_set_nameservers regAllOk allIp "igorville.gov" [] [] DState.ready
        [("ex_date", 7)]).1 ≠ none →
      (domain_set_nameservers regAllOk allIp "igorville.gov" [] [] DState.ready
        [("ex_date", 7)]).2 = [("ex_date", 7)]) :=
  C6_cache_invalidation 3 regAllOk regAllOk allIp "igorville.gov" "igorville.gov"
    [⟨"sec1", ContactType.security, "abc@example.gov", "igorville.gov"⟩]
    ⟨"sec1", ContactType.security, "abc@example.gov", "igorville.gov"⟩
    "fresh1" [] [] DState.ready [("cr_date", 5)] [("ex_date", 7)]

/-- C8: host deletion always detaches first (the domain update removing
the host association precedes any DeleteHost command); an association-
prohibited error on either step is swallowed, returns no success code,
and the batch loop proceeds to the remaining entries without counting the
item. -/
theorem C8_delete_host_detach_first (reg : Registry) (d ns : String)
    (a : Option (List String)) (rest : List (String × Option (List String)))
    (h2305 : reg (Cmd.updateDomainRemHost d ns) = .err codeAssociationProhibits) :
    (∀ reg2 : Registry, ∃ t, (delete_host reg2 d ns).2 = Cmd.updateDomainRemHost d ns :: t ∧
      (t = [] ∨ t = [Cmd.deleteHost ns])) ∧
    delete_host reg d ns = (none, [Cmd.updateDomainRemHost d ns]) ∧
    deleted_host_values reg d ((ns, a) :: rest) =
      ((deleted_host_values reg d rest).1,
        Cmd.updateDomainRemHost d ns :: (deleted_host_values reg d rest).2) ∧
    (∀ reg2 : Registry, ∀ c, reg2 (Cmd.updateDomainRemHost d ns) = .ok c →
      reg2 (Cmd.deleteHost ns) = .err codeAssociationProhibits →
      delete_host reg2 d ns = (none, [Cmd.updateDomainRemHost d ns, Cmd.deleteHost ns])) := by
  have hswallow : delete_host reg d ns = (none, [Cmd.updateDomainRemHost d ns]) := by
    simp [delete_host, h2305]
  refine ⟨?_, hswallow, ?_, ?_⟩
  · intro reg2
    cases hr : reg2 (Cmd.updateDomainRemHost d ns) with
    | err c =>
      refine ⟨[], ?_, Or.inl rfl⟩
      by_cases hc : c = codeAssociationProhibits <;> simp [delete_host, hr, hc]
    | ok c =>
      cases hd : reg2 (Cmd.deleteHost ns) with
      | err c2 =>
        refine ⟨[Cmd.deleteHost ns], ?_, Or.inr rfl⟩
        by_cases hc : c2 = codeAssociationProhibits <;> simp [delete_host, hr, hd, hc]
      | ok c2 =>
        exact ⟨[Cmd.deleteHost ns], by simp [delete_host, hr, hd], Or.inr rfl⟩
  · simp [deleted_host_values, hswallow]
  · intro reg2 c hok hdel
    simp [delete_host, hok, hdel]

/-- C8 witness: on a registry refusing the detach with the association-
prohibited code, the concrete deletion batch proceeds past the swallowed
item without counting it. -/
theorem C8_delete_host_witness :
    regDetachProhibited (Cmd.updateDomainRemHost "igorville.gov" "ns1.example.com") =
      .err codeAssociationProhibits ∧
    delete_host regDetachProhibited "igorville.gov" "ns1.example.com" =
      (none, [Cmd.updateDomainRemHost "igorville.gov" "ns1.example.com"]) ∧
    deleted_host_values regDetachProhibited "igorville.gov"
      [("ns1.example.com", none), ("ns2.example.com", none)] =
      ((deleted_host_values regDetachProhibited "igorville.gov" [("ns2.example.com", none)]).1,
        Cmd.updateDomainRemHost "igorville.gov" "ns1.example.com" ::
          (deleted_host_values regDetachProhibited "igorville.gov"
            [("ns2.example.com", none)]).2) :=
  have h := C8_delete_host_detach_first regDetachProhibited "igorville.gov" "ns1.example.com"
    none [("ns2.example.com", none)] (by decide)
  ⟨by decide, h.2.1, h.2.2.1⟩

/-- C9: a property absent from the cache triggers a fetch; when it is
still absent afterwards the lookup raises the distinct not-found KeyError,
and when it is present afterwards the cached value is returned. -/
theorem C9_get_property_not_found {α : Type} (env : FetchEnv α) (cache : CacheMap α)
    (p : String) (habs : cacheLookup cache p = none) :
    (cacheLookup (fetch_cache env (p == "hosts") (p == "contacts") cache) p = none →
      (get_property env cache p).1 =
        .error ("Requested key " ++ p ++ " was not found in registry cache.")) ∧
    (∀ v, cacheLookup (fetch_cache env (p == "hosts") (p == "contacts") cache) p = some v →
      (get_property env cache p).1 = .ok v) := by
  constructor
  · intro h
    simp [get_property, habs, h]
  · intro v h
    simp [get_property, habs, h]

/-- C9 witness: with an empty cache and an info response carrying cr_date
but no ex_date, reading cr_date returns the fetched value and reading
ex_date raises the not-found error. -/
theorem C9_get_property_witness :
    cacheLookup ([] : CacheMap Nat) "cr_date" = none ∧
    cacheLookup ([] : CacheMap Nat) "ex_date" = none ∧
    (get_property envCrDate ([] : CacheMap Nat) "cr_date").1 = .ok 2 ∧
    (get_property envCrDate ([] : CacheMap Nat) "ex_date").1 =
      .error ("Requested key " ++ "ex_date" ++ " was not found in registry cache.") :=
  ⟨rfl, rfl,
    (C9_get_property_not_found envCrDate [] "cr_date" rfl).2 2 (by decide),
    (C9_get_property_not_found envCrDate [] "ex_date" rfl).1 (by decide)⟩

end DotGov
